import Mathlib

/-!
Shallow embedding of the zlend frontend (app/src) reconciliation layer:
string parsing helpers used by the domain readers, the balance utilities,
the lending utilities, and the per-component optimistic-update / polling
state machines, together with theorems settling the specification claims.

Conventions used throughout the embedding:
- JS `bigint` values parsed from decimal digit strings are modelled as `Nat`;
  displayed ledger balances, which the components mutate by subtraction, are
  modelled as `Int` (JS bigints are signed).
- Fallible JS code (a `BigInt(...)` call that can throw) is modelled with
  `Option` / an explicit `threw` constructor; rejected promises are `Except`.
- An RPC round trip is modelled by an `RpcOutcome` value: either the fetch or
  JSON decode threw, or a JSON-RPC response arrived carrying an optional
  `error` flag and an optional string `result`.
-/

namespace Zlend

/-! ## Decimal strings -/

/-- Decimal digit character for a value below ten (other inputs collapse to `0`). -/
def digitChar (d : Nat) : Char :=
  match d with
  | 1 => '1' | 2 => '2' | 3 => '3' | 4 => '4' | 5 => '5'
  | 6 => '6' | 7 => '7' | 8 => '8' | 9 => '9' | _ => '0'

/-- Fuel-indexed decimal rendering; the fuel is always taken as `n + 1`,
which is enough because dividing by ten strictly decreases. -/
def natDecDigitsAux : Nat → Nat → List Char
  | 0, _ => []
  | fuel + 1, n =>
    if n < 10 then [digitChar n]
    else natDecDigitsAux fuel (n / 10) ++ [digitChar (n % 10)]

/-- Decimal digit list of a natural number, most significant digit first.
Models the decimal rendering used by JS template literals and
`BigInt.prototype.toString`. -/
def natDecDigits (n : Nat) : List Char :=
  natDecDigitsAux (n + 1) n

/-- Decimal string of a natural number (JS template literal interpolation). -/
def natToString (n : Nat) : String :=
  ⟨natDecDigits n⟩

/-- Numeric value of a list of decimal digit characters. -/
def digitsVal (l : List Char) : Nat :=
  l.foldl (fun a c => a * 10 + (c.toNat - 48)) 0

/-- Does the string consist of decimal digits only? -/
def isDigitStr (s : String) : Bool :=
  s.toList.all (·.isDigit)

/-- JS `BigInt(s)` on the string shapes this codebase produces: the empty
string yields `0`, a plain decimal digit string yields its value, and any
other string throws a `SyntaxError` (modelled as `none`). -/
def jsBigInt? (s : String) : Option Nat :=
  if s = "" then some 0
  else if isDigitStr s then some (digitsVal s.toList) else none

/-- JS `parseInt(s)` restricted to the payloads this codebase feeds it:
the value of the longest leading run of decimal digits. A string with no
leading digit yields `NaN` in JS; that case is collapsed to `0` here, which
the claims never exercise (the value is only used for display ordering). -/
def jsParseIntTrunc (s : String) : Nat :=
  digitsVal (s.toList.takeWhile (·.isDigit))

/-- JS `Number(s)` restricted to the decimal-integer bodies returned by the
block explorer: a nonempty digit string yields its value, anything else is
treated as `NaN` (`none`). -/
def jsNumberNat? (s : String) : Option Nat :=
  if isDigitStr s ∧ s ≠ "" then some (digitsVal s.toList) else none

/-! ## JS string operations -/

/-- List form of JS `s.split(pat)[0]`: the prefix of `l` strictly before the
first occurrence of `pat`. -/
def splitHeadList (pat : List Char) : List Char → List Char
  | [] => []
  | c :: rest =>
    if pat.isPrefixOf (c :: rest) then []
    else c :: splitHeadList pat rest

/-- JS `s.split(pat)[0]` for a nonempty pattern. -/
def splitHead (pat s : String) : String :=
  ⟨splitHeadList pat.toList s.toList⟩

/-- List form of JS `s.replace(pat, "")`: removes the first occurrence of
`pat`, leaving the string unchanged when `pat` does not occur. -/
def removeFirstList (pat : List Char) : List Char → List Char
  | [] => []
  | c :: rest =>
    if pat.isPrefixOf (c :: rest) then (c :: rest).drop pat.length
    else c :: removeFirstList pat rest

/-- JS `s.replace(pat, "")` for a nonempty literal pattern. -/
def removeFirst (pat s : String) : String :=
  ⟨removeFirstList pat.toList s.toList⟩

/-- Attempt to match `PRE(\d+)SUF` at the head of `l`: the literal prefix,
then a maximal nonempty digit run, then the literal suffix. Because every
suffix used by this codebase starts with a non-digit character, backtracking
inside the greedy digit run can never help, so this is equivalent to the JS
regex engine at a fixed start position. -/
def tryMatchNatAt (pre suf l : List Char) : Option Nat :=
  if pre.isPrefixOf l then
    let after := l.drop pre.length
    let ds := after.takeWhile (·.isDigit)
    if ds = [] then none
    else if suf.isPrefixOf (after.drop ds.length) then some (digitsVal ds)
    else none
  else none

/-- List scan for the first position where `PRE(\d+)SUF` matches. -/
def extractNatList (pre suf : List Char) : List Char → Option Nat
  | [] => none
  | c :: rest =>
    match tryMatchNatAt pre suf (c :: rest) with
    | some n => some n
    | none => extractNatList pre suf rest

/-- JS `s.match(/PRE(\d+)SUF/)` capture group as a number: the digit run of
the first position at which the whole pattern matches. -/
def extractFirstNat (pre suf : String) (s : String) : Option Nat :=
  extractNatList pre.toList suf.toList s.toList

/-- List scan modelling JS `s.match(/PRE([^,]+)/)`: at the first position
where the literal prefix is followed by at least one non-comma character,
capture the maximal comma-free run. -/
def extractUntilCommaList (pre : List Char) : List Char → Option (List Char)
  | [] => none
  | c :: rest =>
    if pre.isPrefixOf (c :: rest) then
      let tk := ((c :: rest).drop pre.length).takeWhile (· ≠ ',')
      if tk = [] then extractUntilCommaList pre rest else some tk
    else extractUntilCommaList pre rest

/-- JS `s.match(/PRE([^,]+)/)` capture group. -/
def extractUntilComma (pre s : String) : Option String :=
  (extractUntilCommaList pre.toList s.toList).map (⟨·⟩)

/-- JS `s.match(/active: (true|false)/)` capture group. -/
def extractActiveList : List Char → Option Bool
  | [] => none
  | c :: rest =>
    if ("active: true".toList).isPrefixOf (c :: rest) then some true
    else if ("active: false".toList).isPrefixOf (c :: rest) then some false
    else extractActiveList rest

/-- Boolean captured by the `active` field pattern of the loan parser. -/
def extractActive (s : String) : Option Bool :=
  extractActiveList s.toList

/-! ## Constants (`constants/index.ts`, `constants/lending.ts`, `constants/tokens.ts`) -/

def REGISTRY_PROGRAM_ID : String := "token_registry.aleo"

def LENDING_PROGRAM_ID : String := "zhppy2pajo.aleo"

def LENDING_PROGRAM_ID_USDQ : String := "nafrqqtcxg.aleo"

/-- Token id `LENDING_TOKENS.vUSDG`. -/
def vUSDG_TOKEN_ID : String :=
  "5983142094692128773510225623816045070304444621008302359049788306211838130558field"

/-- Token id `LENDING_TOKENS.vUSDQ`. -/
def vUSDQ_TOKEN_ID : String :=
  "8260953594890310383870507716927422646335575786500909254294703665587287172223field"

/-- Token id of `WALEO_TOKEN`. -/
def WALEO_TOKEN_ID : String :=
  "3443843282313283355522573239085696902919850365217539366784739393210722344986field"

def FEE_AMOUNT : Nat := 1000000

/-- Program selection of `getProgramIdForToken` in `constants/lending.ts`. -/
def getProgramIdForToken (token_id : String) : String :=
  if token_id = vUSDQ_TOKEN_ID then LENDING_PROGRAM_ID_USDQ else LENDING_PROGRAM_ID

/-! ## Token balances (JS string-keyed objects of bigints) -/

/-- A `TokenBalances` JS object: insertion-ordered association list from token
id to signed balance. -/
abbrev TokenBalances := List (String × Int)

/-- Lookup of `b[k]` (`none` when the key is absent; keys of a JS object are
unique, so the first binding is the binding). -/
def getBal : TokenBalances → String → Option Int
  | [], _ => none
  | p :: b, k => if p.1 = k then some p.2 else getBal b k

/-- The ubiquitous `b[k] || BigInt(0)` read (absent and zero coincide). -/
def getBalD (b : TokenBalances) (k : String) : Int :=
  (getBal b k).getD 0

/-- JS object update `{...prev, [k]: v}`: overwrite the existing key in place
or append a fresh key at the end. -/
def setBal : TokenBalances → String → Int → TokenBalances
  | [], k, v => [(k, v)]
  | p :: b, k, v => if p.1 = k then (k, v) :: b else p :: setBal b k v

/-! ## Wallet records -/

/-- A wallet record as delivered by `requestRecords`, with its `data` fields
flattened; each record shape in the codebase populates the subset of fields
it carries and leaves the rest `none`. -/
structure TokenRecord where
  id : String := ""
  owner : String := ""
  program_id : String := ""
  spent : Bool := false
  recordName : String := ""
  /-- Field `data.microcredits` of a `credits.aleo` record. -/
  microcredits : Option String := none
  /-- Field `data.token_id` of a token-registry record. -/
  token_id : Option String := none
  /-- Field `data.amount`. -/
  amount : Option String := none
  /-- Field `data.timestamp` of a lend receipt. -/
  timestamp : Option String := none
  /-- Field `data.apy_snapshot` of a lend receipt. -/
  apy_snapshot : Option String := none
  /-- Field `data.id_public` of a `LoanPrivate` record. -/
  id_public : Option String := none
deriving DecidableEq, Repr

/-- JS truthiness of an optional string field: present and nonempty. -/
def truthy (o : Option String) : Bool :=
  match o with
  | none => false
  | some s => s ≠ ""

/-! ## balanceUtils.ts -/

/-- One iteration of the `records.forEach` body of `getPrivateBalances`:
credits records accumulate into the `ALEO` key, token-registry records into
their cleaned token id; spent records and records with missing fields are
skipped. Returns `none` when the `BigInt` conversion throws. -/
def processPrivateRecord (bal : TokenBalances) (r : TokenRecord) : Option TokenBalances :=
  if r.program_id = "credits.aleo" ∧ truthy r.microcredits = true then
    if r.spent = true then some bal
    else
      (jsBigInt? (splitHead "u64" (r.microcredits.getD ""))).map fun (creditAmount : Nat) =>
        setBal bal "ALEO" (getBalD bal "ALEO" + (creditAmount : Int))
  else if r.program_id = REGISTRY_PROGRAM_ID then
    if r.spent = true ∨ r.token_id.isNone ∨ r.amount.isNone then some bal
    else
      (jsBigInt?
        ⟨(splitHead "." (r.amount.getD "")).toList.dropLast.dropLast.dropLast.dropLast⟩).map
          fun (tokenAmount : Nat) =>
            setBal bal (splitHead "." (r.token_id.getD ""))
              (getBalD bal (splitHead "." (r.token_id.getD "")) + (tokenAmount : Int))
  else some bal

/-- Function `getPrivateBalances` of `balanceUtils.ts`: fold every record into
an initially empty balances object; `none` models the exception propagating
out of the `forEach` when a malformed amount makes `BigInt` throw. -/
def getPrivateBalances (records : List TokenRecord) : Option TokenBalances :=
  records.foldlM processPrivateRecord []

/-- Token key a record credits, when it is counted by `getPrivateBalances`
(unspent and carrying the fields its branch requires). -/
def privateRecordKey (r : TokenRecord) : Option String :=
  if r.spent = true then none
  else if r.program_id = "credits.aleo" ∧ truthy r.microcredits = true then some "ALEO"
  else if r.program_id = REGISTRY_PROGRAM_ID ∧ r.token_id.isSome ∧ r.amount.isSome then
    some (splitHead "." (r.token_id.getD ""))
  else none

/-- Amount a record contributes, under the same parse `getPrivateBalances`
performs (zero when the parse fails or the record is not counted). -/
def privateRecordAmount (r : TokenRecord) : Nat :=
  if r.program_id = "credits.aleo" ∧ truthy r.microcredits = true then
    (jsBigInt? (splitHead "u64" (r.microcredits.getD ""))).getD 0
  else
    (jsBigInt?
      ⟨(splitHead "." (r.amount.getD "")).toList.dropLast.dropLast.dropLast.dropLast⟩).getD 0

/-- Signed contribution of a single record to the computed balance of token
`k`: zero for spent records and for records credited to other tokens. -/
def privateContribution (r : TokenRecord) (k : String) : Int :=
  if privateRecordKey r = some k then privateRecordAmount r else 0

/-! ## RPC outcomes and domain readers -/

/-- Outcome of one JSON-RPC round trip as observed by a reader: either the
fetch or JSON decode threw, or a decoded response arrived with its `error`
field (collapsed to truthiness) and its optional string `result`. -/
inductive RpcOutcome where
  | netFail
  | response (error : Bool) (result : Option String)
deriving DecidableEq, Repr

/-- Function `getPublicBalance` of `balanceUtils.ts` as a function of the RPC
outcome (the request construction and struct hashing are opaque inputs; a
hashing failure is covered by `netFail`). Parses `balance: (\d+)u128` and
fails closed to zero on every error path. -/
def getPublicBalance (o : RpcOutcome) : Nat :=
  match o with
  | .netFail => 0
  | .response e result =>
    if e then 0
    else
      match result with
      | none => 0
      | some s => (extractFirstNat "balance: " "u128" s).getD 0

/-- Function `getAleoBalance` of `balanceUtils.ts`: parses `(\d+)u64` out of
the `credits.aleo/account` mapping value, failing closed to zero. -/
def getAleoBalance (o : RpcOutcome) : Nat :=
  match o with
  | .netFail => 0
  | .response e result =>
    if e then 0
    else
      match result with
      | none => 0
      | some s => (extractFirstNat "" "u64" s).getD 0

/-! ## lendingUtils.ts readers -/

/-- Global supplied/borrowed pair of a lending program instance. -/
structure LendingTotals where
  supplied : Nat
  borrowed : Nat
deriving DecidableEq, Repr

/-- Result of one `supplied_total` or `borrowed_total` fetch inside
`getLendingTotals`: `none` when the fetch threw, otherwise the value of
`result?.match(/(\d+)u128/)` with a zero fallback (the reader never consults
the JSON-RPC `error` field here). -/
def totalsFieldValue (o : RpcOutcome) : Option Nat :=
  match o with
  | .netFail => none
  | .response _ result => some ((result.bind (extractFirstNat "" "u128")).getD 0)

/-- Function `getLendingTotals` of `lendingUtils.ts`: two sequential mapping
reads; any throw lands in the catch block, which returns the zero pair. -/
def getLendingTotals (o1 o2 : RpcOutcome) : LendingTotals :=
  match totalsFieldValue o1 with
  | none => ⟨0, 0⟩
  | some supplied =>
    match totalsFieldValue o2 with
    | none => ⟨0, 0⟩
    | some borrowed => ⟨supplied, borrowed⟩

/-- Function `getLendingAPY` of `lendingUtils.ts`: parses `apy: (\d+)u64` and
divides by one hundred, failing closed to zero. The JS `Number` division is
modelled as exact rational division; the claims only distinguish zero from
nonzero here. -/
def getLendingAPY (o : RpcOutcome) : ℚ :=
  match o with
  | .netFail => 0
  | .response e result =>
    if e then 0
    else
      match result with
      | none => 0
      | some s =>
        match extractFirstNat "apy: " "u64" s with
        | none => 0
        | some n => (n : ℚ) / 100

/-- Function `getLendingRewards` of `lendingUtils.ts`: parses
`reward: (\d+)u128`, failing closed to zero. -/
def getLendingRewards (o : RpcOutcome) : Nat :=
  match o with
  | .netFail => 0
  | .response e result =>
    if e then 0
    else
      match result with
      | none => 0
      | some s => (extractFirstNat "reward: " "u128" s).getD 0

/-- Function `getNextLoanId` of `lendingUtils.ts`: parses `(\d+)u32` out of
the `last_loan_id` mapping value; every failure path returns the default
loan id `1`, not zero. -/
def getNextLoanId (o : RpcOutcome) : Nat :=
  match o with
  | .netFail => 1
  | .response e result =>
    if e then 1
    else
      match result with
      | none => 1
      | some s => (extractFirstNat "" "u32" s).getD 1

/-- Parsed `loans_public` mapping entry. -/
structure LoanPublic where
  id_public : Nat
  collateral_amount : Nat
  collateral_token_id : String
  borrowed_amount : Nat
  timestamp : Nat
  apr_snapshot : Nat
  active : Bool
deriving DecidableEq, Repr

/-- Field-by-field parse of a `loans_public` payload, mirroring the seven
regex extractions of `getPublicLoanDetails`; any missing field makes the
whole parse fail. -/
def parseLoanPublic (s : String) : Option LoanPublic :=
  match extractFirstNat "id_public: " "u32" s,
        extractFirstNat "collateral_amount: " "u128" s,
        extractUntilComma "collateral_token_id: " s,
        extractFirstNat "borrowed_amount: " "u128" s,
        extractFirstNat "timestamp: " "u32" s,
        extractFirstNat "apr_snapshot: " "u128" s,
        extractActive s with
  | some i, some ca, some ct, some ba, some ts, some ap, some ac =>
    some ⟨i, ca, ct, ba, ts, ap, ac⟩
  | _, _, _, _, _, _, _ => none

/-- Function `getPublicLoanDetails` of `lendingUtils.ts`: extracts the numeric
loan id from the handle, queries the `loans_public` mapping, and parses the
payload; every failure path (bad id, RPC error, falsy result, parse failure)
returns `none` because the internal throw is caught. -/
def getPublicLoanDetails (loanId : String) (o : RpcOutcome) : Option LoanPublic :=
  match extractFirstNat "" "u32" loanId with
  | none => none
  | some _ =>
    match o with
    | .netFail => none
    | .response e result =>
      if e then none
      else
        match result with
        | none => none
        | some s => if s = "" then none else parseLoanPublic s

/-! ## Block height and transaction builders -/

/-- Outcome of the block-explorer height request: the HTTP layer failed
(non-ok status or thrown fetch), or a text body arrived. -/
inductive HeightOutcome where
  | httpFail
  | body (s : String)
deriving DecidableEq, Repr

/-- Function `getBlockHeight` of `lendingUtils.ts`: unlike the mapping
readers it rethrows every failure to its caller. -/
def getBlockHeight (o : HeightOutcome) : Except String Nat :=
  match o with
  | .httpFail => .error "HTTP error getting block height"
  | .body s =>
    if s = "" then .error "Empty block height response from Aleo Public API"
    else
      match jsNumberNat? s with
      | none => .error "Invalid block height format from Aleo Public API"
      | some h => .ok h

/-- One transaction input: either a structured record object or a serialized
string argument. -/
inductive TxInput where
  | recordInput (r : TokenRecord)
  | strInput (s : String)
deriving DecidableEq, Repr

/-- One program invocation inside an outbound transaction. -/
structure Transition where
  program : String
  functionName : String
  inputs : List TxInput
deriving DecidableEq, Repr

/-- Outbound transaction shape handed to `requestTransaction`. -/
structure LendingTransaction where
  address : String
  chainId : String
  transitions : List Transition
  fee : Nat
  feePrivate : Bool
deriving DecidableEq, Repr

/-- Function `prepareLendingTransaction` of `lendingUtils.ts` as a function of
the outcomes of its build-time reads: validates the token id, awaits the
block height (rethrowing its failure), folds in the totals read (which never
throws), and assembles the `lend` invocation. -/
def prepareLendingTransaction (token_id : String) (amount : Nat) (publicKey : String)
    (tokenRecord : TokenRecord) (ho : HeightOutcome) (o1 o2 : RpcOutcome) :
    Except String LendingTransaction :=
  if token_id ≠ vUSDG_TOKEN_ID ∧ token_id ≠ vUSDQ_TOKEN_ID then
    .error "Invalid token ID. Only vUSDG and vUSDQ tokens are supported."
  else
    match getBlockHeight ho with
    | .error e => .error e
    | .ok blockHeight =>
      let t := getLendingTotals o1 o2
      .ok
        { address := publicKey
          chainId := "testnetbeta"
          transitions :=
            [{ program := getProgramIdForToken token_id
               functionName := "lend"
               inputs :=
                 [.recordInput tokenRecord,
                  .strInput (natToString amount ++ "u128"),
                  .strInput (natToString blockHeight ++ "u32"),
                  .strInput (natToString t.supplied ++ "u128"),
                  .strInput (natToString t.borrowed ++ "u128")] }]
          fee := FEE_AMOUNT
          feePrivate := false }

/-- Record contents of a lending proof as formatted by `handleRedeem`. -/
structure LendingProof where
  id : String
  owner : String
  amount : String
  timestamp : String
  apy_snapshot : String
deriving DecidableEq, Repr

/-- Function `prepareRedeemTransaction` of `lendingUtils.ts`: awaits the block
height (rethrowing its failure), folds in the supplied total, and assembles
the `redeem` invocation around the formatted receipt record. -/
def prepareRedeemTransaction (lendingProof : LendingProof) (publicKey : String)
    (programId : String) (ho : HeightOutcome) (o1 o2 : RpcOutcome) :
    Except String LendingTransaction :=
  match getBlockHeight ho with
  | .error e => .error e
  | .ok blockHeight =>
    let t := getLendingTotals o1 o2
    let recordName := if programId = LENDING_PROGRAM_ID_USDQ then "avUSDQ" else "avUSDG"
    .ok
      { address := publicKey
        chainId := "testnetbeta"
        transitions :=
          [{ program := programId
             functionName := "redeem"
             inputs :=
               [.recordInput
                 { id := lendingProof.id
                   owner := lendingProof.owner
                   program_id := programId
                   spent := false
                   recordName := recordName
                   amount := some lendingProof.amount
                   timestamp := some lendingProof.timestamp
                   apy_snapshot := some lendingProof.apy_snapshot },
                .strInput (natToString blockHeight ++ "u32"),
                .strInput (natToString t.supplied ++ "u128")] }]
        fee := FEE_AMOUNT
        feePrivate := false }

/-! ## formatUtils.ts -/

/-- Function `formatBalance` of `formatUtils.ts`. A falsy balance (absent or
zero) renders as `0.0000`; otherwise the decimal string is cut `decimals`
characters from the right, the fractional side is left-padded with zeros to
`decimals` characters, and only its first four characters are displayed. -/
def formatBalance (balance : Option Nat) (decimals : Nat) : String :=
  match balance with
  | none => "0.0000"
  | some b =>
    if b = 0 then "0.0000"
    else
      let s := natDecDigits b
      let len := s.length
      let whole := if 0 < decimals ∧ decimals < len then s.take (len - decimals) else ['0']
      let decTail := if decimals = 0 then s else s.drop (len - min decimals len)
      let padded := List.replicate (decimals - decTail.length) '0' ++ decTail
      ⟨whole ++ '.' :: padded.take 4⟩

/-! ## YourLends polling (the pending-lend confirmation loop) -/

/-- Active lend position as assembled by the YourLends poll loop. The JS
object also carries a floating-point display field `apy`
(`Number(apy_snapshot)`), which is derived and display-only; it is omitted. -/
structure LendPosition where
  id : String
  amount : Nat
  timestamp : Nat
  apy_snapshot : String
  programId : String
deriving DecidableEq, Repr

/-- Pending lend entry appended by `handleLendPending` in the dashboard. -/
structure PendingLend where
  amount : Nat
  timestamp : Nat
  transactionId : String
deriving DecidableEq, Repr

/-- Pending borrow entry appended by `handleBorrowPending` in the dashboard. -/
structure PendingBorrow where
  tokenId : String
  amount : Nat
  timestamp : Nat
  collateralAmount : Nat
  collateralTokenId : String
  transactionId : String
deriving DecidableEq, Repr

/-- Active borrow position as assembled by the YourBorrows poll loop (the
derived floating-point display field `apr` is omitted). -/
structure BorrowPosition where
  id : String
  borrowed_amount : Nat
  collateral_amount : Nat
  collateral_token_id : String
  timestamp : Nat
  apr_snapshot : Nat
deriving DecidableEq, Repr

/-- Record filter of the pending-lend poll: unspent `avUSDG` or `avUSDQ`
receipts. -/
def avTokenFilter (r : TokenRecord) : Bool :=
  !r.spent ∧ (r.recordName = "avUSDG" ∨ r.recordName = "avUSDQ")

/-- Amount extraction of the pending-lend poll:
`record.data?.amount ? BigInt(record.data.amount.replace("u128.private", "")) : BigInt(0)`;
`none` models the `BigInt` throw on a malformed string. -/
def pendingLendRecordAmount (r : TokenRecord) : Option Nat :=
  match r.amount with
  | none => some 0
  | some s => if s = "" then some 0 else jsBigInt? (removeFirst "u128.private" s)

/-- Timestamp extraction of the pending-lend poll (`parseInt` of the cleaned
field, zero when the field is falsy). -/
def pendingLendRecordTimestamp (r : TokenRecord) : Nat :=
  match r.timestamp with
  | none => 0
  | some s => if s = "" then 0 else jsParseIntTrunc (removeFirst "u32.private" s)

/-- Apy-snapshot extraction of the pending-lend poll (cleaned field with a
`"0"` fallback). -/
def pendingLendApySnapshot (r : TokenRecord) : String :=
  match r.apy_snapshot with
  | none => "0"
  | some s =>
    let t := removeFirst "u128.private" s
    if t = "" then "0" else t

/-- Lend position built from a freshly matched receipt record. -/
def mkLendPosition (r : TokenRecord) (amount : Nat) : LendPosition :=
  { id := r.id
    amount := amount
    timestamp := pendingLendRecordTimestamp r
    apy_snapshot := pendingLendApySnapshot r
    programId := if r.recordName = "avUSDQ" then LENDING_PROGRAM_ID_USDQ else LENDING_PROGRAM_ID }

/-- Result of scanning the filtered record list inside one poll iteration. -/
inductive LendScan where
  | found (r : TokenRecord) (amount : Nat)
  | threw
  | noMatch
deriving DecidableEq, Repr

/-- The record loop of the pending-lend poll over the already filtered
records: skip records with a falsy id, skip records whose id is already in
the observed active-lends list, parse the amount (a throw aborts the scan
into the catch block), and claim the first record whose amount equals the
pending amount. -/
def scanLendRecords (p : PendingLend) (lendsView : List LendPosition) :
    List TokenRecord → LendScan
  | [] => .noMatch
  | r :: rest =>
    if r.id = "" then scanLendRecords p lendsView rest
    else if lendsView.any (fun lend => lend.id = r.id) then scanLendRecords p lendsView rest
    else
      match pendingLendRecordAmount r with
      | none => .threw
      | some a =>
        if a = p.amount then .found r a else scanLendRecords p lendsView rest

/-- Stable insertion into a list sorted by descending timestamp, modelling
the comparator `(a, b) => b.timestamp - a.timestamp`. -/
def insertLendDesc (x : LendPosition) : List LendPosition → List LendPosition
  | [] => [x]
  | y :: ys => if y.timestamp ≤ x.timestamp then x :: y :: ys else y :: insertLendDesc x ys

/-- Stable descending sort by timestamp (`Array.prototype.sort` is stable). -/
def sortLendsDesc (l : List LendPosition) : List LendPosition :=
  l.foldr insertLendDesc []

/-- Combined dashboard-level state touched by the flows the claims are about. -/
structure DashboardState where
  publicBalances : TokenBalances := []
  privateBalances : TokenBalances := []
  pendingLends : List PendingLend := []
  lends : List LendPosition := []
  pendingBorrows : List PendingBorrow := []
  activeBorrows : List BorrowPosition := []
deriving DecidableEq, Repr

/-- Outcome of one pending-lend poll iteration: the state after its `setState`
calls, the record it claimed (when it confirmed the pending lend), and the
delay it passed to `setTimeout` when it rescheduled itself. -/
structure LendTickResult where
  state : DashboardState
  matched : Option (PendingLend × TokenRecord)
  nextDelayMs : Option Nat
deriving Repr

/-- One iteration of the `poll` closure created for `pendingLend` inside the
YourLends effect. `pendingView` and `lendsView` are the `pendingLends` and
`lends` values captured by the closure of the current effect generation; in
a purely sequential execution they coincide with the current state, but
between a state update and the effect re-run they lag it. After the
180-second budget the iteration only removes the pending entry; on a match
it appends the new position (re-sorting by timestamp) and removes the
pending entry; otherwise it reschedules itself after 5000 ms. -/
def pollLendTick (now startTime : Nat) (p : PendingLend)
    (pendingView : List PendingLend) (lendsView : List LendPosition)
    (records : List TokenRecord) (st : DashboardState) : LendTickResult :=
  if 180000 < now - startTime then
    { state := { st with pendingLends := pendingView.filter (· ≠ p) }
      matched := none
      nextDelayMs := none }
  else
    match scanLendRecords p lendsView (records.filter avTokenFilter) with
    | .found r a =>
      { state :=
          { st with
            lends := sortLendsDesc (st.lends ++ [mkLendPosition r a])
            pendingLends := pendingView.filter (· ≠ p) }
        matched := some (p, r)
        nextDelayMs := none }
    | .threw => { state := st, matched := none, nextDelayMs := some 5000 }
    | .noMatch => { state := st, matched := none, nextDelayMs := some 5000 }

/-- One polling event in a sequential execution: a poll iteration for `p`
whose closure observes the current state. -/
structure LendEvent where
  now : Nat
  startTime : Nat
  p : PendingLend
  records : List TokenRecord
deriving Repr

/-- Sequential step: poll closures only exist for entries of the current
pending list, and in the sequential (interleaving-free) execution each
iteration observes the current state. -/
def lendStepSeq (st : DashboardState) (e : LendEvent) :
    DashboardState × Option (PendingLend × TokenRecord) :=
  if e.p ∈ st.pendingLends then
    ((pollLendTick e.now e.startTime e.p st.pendingLends st.lends e.records st).state,
      (pollLendTick e.now e.startTime e.p st.pendingLends st.lends e.records st).matched)
  else (st, none)

/-- Sequential run accumulating the match events. -/
def lendRunSeq (st : DashboardState) : List LendEvent →
    DashboardState × List (PendingLend × TokenRecord)
  | [] => (st, [])
  | e :: es =>
    ((lendRunSeq (lendStepSeq st e).1 es).1,
      (lendStepSeq st e).2.toList ++ (lendRunSeq (lendStepSeq st e).1 es).2)

/-! ## YourBorrows polling (the pending-borrow confirmation loop) -/

/-- Record filter of the pending-borrow poll: unspent `LoanPrivate` records. -/
def loanPrivateFilter (r : TokenRecord) : Bool :=
  !r.spent ∧ r.recordName = "LoanPrivate"

/-- Match predicate of the pending-borrow poll against fetched loan details. -/
def borrowMatchesPending (pb : PendingBorrow) (d : LoanPublic) : Bool :=
  d.borrowed_amount = pb.amount ∧
  d.collateral_amount = pb.collateralAmount ∧
  d.collateral_token_id = pb.collateralTokenId

/-- The record loop of the pending-borrow poll over the already filtered
records; `details` supplies the RPC outcome of the per-loan
`getPublicLoanDetails` request. Records with a falsy `id_public`, loans
already in the observed active list, and loans whose details cannot be
fetched are skipped. -/
def scanBorrowRecords (pb : PendingBorrow) (borrowsView : List BorrowPosition)
    (details : String → RpcOutcome) : List TokenRecord → Option (String × LoanPublic)
  | [] => none
  | r :: rest =>
    match r.id_public with
    | none => scanBorrowRecords pb borrowsView details rest
    | some loanId =>
      if loanId = "" then scanBorrowRecords pb borrowsView details rest
      else if borrowsView.any (fun b => b.id = loanId) then
        scanBorrowRecords pb borrowsView details rest
      else
        match getPublicLoanDetails loanId (details loanId) with
        | none => scanBorrowRecords pb borrowsView details rest
        | some d =>
          if borrowMatchesPending pb d then some (loanId, d)
          else scanBorrowRecords pb borrowsView details rest

/-- Borrow position built from freshly fetched loan details. -/
def mkBorrowPosition (loanId : String) (d : LoanPublic) : BorrowPosition :=
  { id := loanId
    borrowed_amount := d.borrowed_amount
    collateral_amount := d.collateral_amount
    collateral_token_id := d.collateral_token_id
    timestamp := d.timestamp
    apr_snapshot := d.apr_snapshot }

/-- Stable insertion by descending timestamp for borrow positions. -/
def insertBorrowDesc (x : BorrowPosition) : List BorrowPosition → List BorrowPosition
  | [] => [x]
  | y :: ys => if y.timestamp ≤ x.timestamp then x :: y :: ys else y :: insertBorrowDesc x ys

/-- Stable descending sort by timestamp for borrow positions. -/
def sortBorrowsDesc (l : List BorrowPosition) : List BorrowPosition :=
  l.foldr insertBorrowDesc []

/-- Outcome of one pending-borrow poll iteration. -/
structure BorrowTickResult where
  state : DashboardState
  matched : Option (PendingBorrow × String)
  nextDelayMs : Option Nat
deriving Repr

/-- One iteration of the `poll` closure created for `pendingBorrow` inside the
YourBorrows effect, structured exactly like the pending-lend iteration. -/
def pollBorrowTick (now startTime : Nat) (pb : PendingBorrow)
    (pendingView : List PendingBorrow) (borrowsView : List BorrowPosition)
    (records : List TokenRecord) (details : String → RpcOutcome)
    (st : DashboardState) : BorrowTickResult :=
  if 180000 < now - startTime then
    { state := { st with pendingBorrows := pendingView.filter (· ≠ pb) }
      matched := none
      nextDelayMs := none }
  else
    match scanBorrowRecords pb borrowsView details (records.filter loanPrivateFilter) with
    | some (loanId, d) =>
      { state :=
          { st with
            activeBorrows := sortBorrowsDesc (st.activeBorrows ++ [mkBorrowPosition loanId d])
            pendingBorrows := pendingView.filter (· ≠ pb) }
        matched := some (pb, loanId)
        nextDelayMs := none }
    | none => { state := st, matched := none, nextDelayMs := some 5000 }

/-! ## Dashboard and AssetsToLend optimistic handlers -/

/-- Handler `handleLendSuccess` of AssetsToLend combined with
`handleLendPending` of the dashboard: debit the private balance of the lent
token and append the pending lend entry. -/
def handleLendSuccess (tokenId : String) (amount : Nat) (timestamp : Nat)
    (transactionId : String) (st : DashboardState) : DashboardState :=
  { st with
    privateBalances :=
      setBal st.privateBalances tokenId (getBalD st.privateBalances tokenId - amount)
    pendingLends :=
      st.pendingLends ++ [{ amount := amount, timestamp := timestamp, transactionId := transactionId }] }

/-- Handler `handleTransferSuccess` of AssetsToLend: optimistic move of the
amount from the public to the private balance of the token. -/
def handleTransferSuccess (tokenId : String) (amount : Nat) (st : DashboardState) :
    DashboardState :=
  { st with
    publicBalances :=
      setBal st.publicBalances tokenId (getBalD st.publicBalances tokenId - amount)
    privateBalances :=
      setBal st.privateBalances tokenId (getBalD st.privateBalances tokenId + amount) }

/-- Handler `handleWrapSuccess` of AssetsToLend: move the amount between the
private `ALEO` and `wALEO` balances, direction given by `isWrap`. -/
def handleWrapSuccess (amount : Nat) (isWrap : Bool) (st : DashboardState) : DashboardState :=
  if isWrap then
    let b1 := setBal st.privateBalances "ALEO" (getBalD st.privateBalances "ALEO" - amount)
    { st with privateBalances := setBal b1 WALEO_TOKEN_ID (getBalD b1 WALEO_TOKEN_ID + amount) }
  else
    let b1 := setBal st.privateBalances WALEO_TOKEN_ID
      (getBalD st.privateBalances WALEO_TOKEN_ID - amount)
    { st with privateBalances := setBal b1 "ALEO" (getBalD b1 "ALEO" + amount) }

/-- Handler `handleRepaySuccess` of the dashboard: debit the repaid token and
credit the collateral token on the private ledger, with no check against the
displayed balances. -/
def handleRepaySuccess (tokenId : String) (amount : Nat) (collateralTokenId : String)
    (collateralAmount : Nat) (st : DashboardState) : DashboardState :=
  let b1 := setBal st.privateBalances tokenId (getBalD st.privateBalances tokenId - amount)
  { st with
    privateBalances :=
      setBal b1 collateralTokenId (getBalD b1 collateralTokenId + collateralAmount) }

/-! ## Pre-submission validations and record searches -/

/-- Core of `validateTransferAmount` in `transferUtils.ts` after the
string-to-number conversion: the JS source computes
`parseFloat(amount) <= 0` (negated here as `amountPositive`) and
`BigInt(Math.floor(parseFloat(amount) * 10 ** decimals))`
(`amountInMicrocredits`); the floating-point conversion is abstracted into
these two arguments, and the caller uses the identical converted value for
the optimistic debit. -/
def validateTransferAmount (amountPositive : Bool) (amountInMicrocredits : Int)
    (availableBalance : Int) : Option String :=
  if !amountPositive then some "Please enter a valid amount"
  else if availableBalance < amountInMicrocredits then
    some "Insufficient balance for transfer and fees"
  else none

/-- Balance guard of `handleWrapTransaction` in WrapModal: wrapping more than
the displayed private ALEO balance throws before submission. -/
def wrapBalanceCheck (amountInMicrocredits : Int) (aleoPrivateBalance : Int) :
    Except String Unit :=
  if aleoPrivateBalance < amountInMicrocredits then .error "Insufficient private ALEO balance"
  else .ok ()

/-- Balance guard of `handleUnwrapTransaction` in WrapModal. -/
def unwrapBalanceCheck (amountInMicrocredits : Int) (wAleoPrivateBalance : Int) :
    Except String Unit :=
  if wAleoPrivateBalance < amountInMicrocredits then .error "Insufficient private wALEO balance"
  else .ok ()

/-- Result of a wallet-record search loop. -/
inductive RecordSearch where
  | found (r : TokenRecord)
  | threw
  | noRecord
deriving DecidableEq, Repr

/-- Record search of `handleLend` in LendModal: first unspent registry record
of the selected token whose parsed amount covers the requested amount; the
search checks individual record amounts, never the displayed balance. -/
def findLendRecord (selectedToken : String) (amountInMicrocredits : Nat) :
    List TokenRecord → RecordSearch
  | [] => .noRecord
  | r :: rest =>
    if r.spent then findLendRecord selectedToken amountInMicrocredits rest
    else
      match r.token_id, r.amount with
      | some tokenId, some recordAmount =>
        if tokenId = "" ∨ recordAmount = "" then
          findLendRecord selectedToken amountInMicrocredits rest
        else if removeFirst ".private" tokenId = selectedToken then
          match jsBigInt? (splitHead "u128" recordAmount) with
          | none => .threw
          | some tokenAmount =>
            if amountInMicrocredits ≤ tokenAmount then .found r
            else findLendRecord selectedToken amountInMicrocredits rest
        else findLendRecord selectedToken amountInMicrocredits rest
      | _, _ => findLendRecord selectedToken amountInMicrocredits rest

/-- Repayment-record search of `handleRepay` in YourBorrows: first unspent
registry record of the vUSDG token whose parsed amount covers the borrowed
amount; again only the single record amount is checked. -/
def findRepaymentRecord (borrowedAmount : Nat) : List TokenRecord → RecordSearch
  | [] => .noRecord
  | r :: rest =>
    if r.spent then findRepaymentRecord borrowedAmount rest
    else
      match r.token_id with
      | none => findRepaymentRecord borrowedAmount rest
      | some tokenIdRaw =>
        if tokenIdRaw = "" then findRepaymentRecord borrowedAmount rest
        else
          match r.amount with
          | none => findRepaymentRecord borrowedAmount rest
          | some amountRaw =>
            if amountRaw = "" then findRepaymentRecord borrowedAmount rest
            else
              match jsBigInt? (splitHead "u128" amountRaw) with
              | none => .threw
              | some amount =>
                if removeFirst ".private" tokenIdRaw = vUSDG_TOKEN_ID ∧
                    borrowedAmount ≤ amount then .found r
                else findRepaymentRecord borrowedAmount rest

/-! ## AssetsToBorrow lending-totals reconciliation -/

/-- Local state of the AssetsToBorrow component: displayed totals, the
optimistic available-to-borrow override, and the pending borrow amount kept
for confirmation checks. -/
structure BorrowTotalsState where
  lendingTotals : LendingTotals
  optimisticAvailable : Option Int
  lastBorrowAmount : Option Nat
deriving DecidableEq, Repr

/-- Handler `handleBorrowSuccess` of AssetsToBorrow: store the optimistic
available amount, remember the borrow amount for confirmation, and bump the
displayed borrowed total by the borrowed amount. -/
def handleBorrowSuccess (amount : Nat) (st : BorrowTotalsState) : BorrowTotalsState :=
  let currentAvailable : Int :=
    (st.lendingTotals.supplied : Int) - (st.lendingTotals.borrowed : Int)
  { lendingTotals := { st.lendingTotals with borrowed := st.lendingTotals.borrowed + amount }
    optimisticAvailable := some (currentAvailable - amount)
    lastBorrowAmount := some amount }

/-- Display selector `getAvailableAmount` of AssetsToBorrow. -/
def getAvailableAmount (tokenId : String) (st : BorrowTotalsState) : Int :=
  if tokenId ≠ vUSDG_TOKEN_ID then 0
  else
    match st.optimisticAvailable with
    | some v => v
    | none => (st.lendingTotals.supplied : Int) - (st.lendingTotals.borrowed : Int)

/-- One iteration of the confirmation `poll` closure created inside
`handleBorrowSuccess`. `pre` is the `lendingTotals` value captured by the
closure, i.e. the totals rendered when the handler was created: the
pre-submission totals. After the 180-second budget only the remembered
borrow amount is cleared; the optimistic available override survives the
timeout. -/
def borrowConfirmPollStep (pre : LendingTotals) (amount : Nat) (now startTime : Nat)
    (o1 o2 : RpcOutcome) (st : BorrowTotalsState) : BorrowTotalsState × Option Nat :=
  if 180000 < now - startTime then
    ({ st with lastBorrowAmount := none }, none)
  else
    let totals := getLendingTotals o1 o2
    if pre.borrowed + amount ≤ totals.borrowed then
      ({ lendingTotals := totals, optimisticAvailable := none, lastBorrowAmount := none }, none)
    else (st, some 5000)

/-- One run of the `loadLendingTotals` callback of AssetsToBorrow (fired on
mount and then every ten seconds). `captured` is the `lendingTotals` value
captured by the callback closure; the callback is created with an empty
dependency list, so in the running component it is the initial zero pair,
not the totals at the time of the poll. The optimistic override is cleared
when the fresh borrowed total reaches `captured.borrowed` plus the
remembered borrow amount, and the fresh totals are always adopted. -/
def loadLendingTotalsStep (captured : LendingTotals) (o1 o2 : RpcOutcome)
    (st : BorrowTotalsState) : BorrowTotalsState :=
  let totals := getLendingTotals o1 o2
  let cleared :=
    match st.lastBorrowAmount with
    | some a =>
      if captured.borrowed + a ≤ totals.borrowed then
        { st with optimisticAvailable := none, lastBorrowAmount := none }
      else st
    | none => st
  { cleared with lendingTotals := totals }

/-! ## Balance polling cadence (pollTokenBalance of AssetsToLend) -/

/-- Success-path rescheduling interval of `pollTokenBalance` as a function of
the attempt counter (which starts at one): two seconds for the first three
attempts, three seconds for the next three, five seconds thereafter. -/
def pollTokenBalanceInterval (attempt : Nat) : Nat :=
  if attempt ≤ 3 then 2000 else if attempt ≤ 6 then 3000 else 5000

/-- Error-path rescheduling interval of `pollTokenBalance`. -/
def pollTokenBalanceRetryInterval (attempt : Nat) : Nat :=
  if attempt ≤ 3 then 3000 else 5000

/-! ## Concrete sample data used by witnesses and counterexamples -/

/-- Unspent vUSDG registry record holding 100 base units. -/
def sampleUSDGRecord : TokenRecord :=
  { id := "r1"
    owner := "aleo1user"
    program_id := REGISTRY_PROGRAM_ID
    spent := false
    recordName := "Token"
    token_id := some (vUSDG_TOKEN_ID ++ ".private")
    amount := some "100u128.private" }

/-- The same record shape, already spent. -/
def sampleSpentRecord : TokenRecord :=
  { sampleUSDGRecord with id := "r2", spent := true }

/-- Unspent avUSDG lend receipt over 500000 base units. -/
def sampleAvRecord : TokenRecord :=
  { id := "av1"
    owner := "aleo1user"
    program_id := LENDING_PROGRAM_ID
    spent := false
    recordName := "avUSDG"
    amount := some "500000u128.private"
    timestamp := some "5u32.private"
    apy_snapshot := some "300u128.private" }

/-- First pending lend of 500000 base units. -/
def samplePendingA : PendingLend :=
  { amount := 500000, timestamp := 1, transactionId := "tx1" }

/-- Second pending lend with the same amount. -/
def samplePendingB : PendingLend :=
  { amount := 500000, timestamp := 2, transactionId := "tx2" }

/-- First poll iteration of a generation whose effect closures captured the
pending list `[samplePendingA, samplePendingB]` and the empty active-lends
list: the iteration for `samplePendingA` over one matching receipt record. -/
def staleViewTick1 : LendTickResult :=
  pollLendTick 1000 0 samplePendingA [samplePendingA, samplePendingB] [] [sampleAvRecord]
    { pendingLends := [samplePendingA, samplePendingB] }

/-- Second poll iteration of the same generation, for `samplePendingB`,
running before the effect re-ran: its closure still observes the captured
(empty) active-lends view although the state already contains the position
claimed by the first iteration. -/
def staleViewTick2 : LendTickResult :=
  pollLendTick 2000 0 samplePendingB [samplePendingA, samplePendingB] [] [sampleAvRecord]
    staleViewTick1.state

/-! ## Helper lemmas about balance objects -/

theorem getBal_setBal (b : TokenBalances) (k k' : String) (v : Int) :
    getBal (setBal b k v) k' = if k' = k then some v else getBal b k' := by
  induction b with
  | nil =>
    by_cases h : k' = k
    · subst h; simp [setBal, getBal]
    · have h2 : ¬(k = k') := fun hh => h hh.symm
      simp [setBal, getBal, h, h2]
  | cons p b ih =>
    by_cases hpk : p.1 = k
    · by_cases h : k' = k
      · subst h; simp [setBal, hpk, getBal]
      · have h2 : ¬(k = k') := fun hh => h hh.symm
        have hne : ¬(p.1 = k') := by rw [hpk]; exact h2
        simp [setBal, hpk, getBal, h, h2, hne]
    · by_cases hpk' : p.1 = k'
      · have : ¬(k' = k) := fun hh => hpk (hpk'.trans hh)
        simp [setBal, hpk, getBal, hpk', this]
      · simp [setBal, hpk, getBal, hpk', ih]

theorem getBalD_setBal (b : TokenBalances) (k k' : String) (v : Int) :
    getBalD (setBal b k v) k' = if k' = k then v else getBalD b k' := by
  by_cases h : k' = k <;> simp [getBalD, getBal_setBal, h]

/-! ## Helper lemmas about getPrivateBalances -/

theorem privateContribution_spent (r : TokenRecord) (hs : r.spent = true) (k : String) :
    privateContribution r k = 0 := by
  simp [privateContribution, privateRecordKey, hs]

theorem processPrivateRecord_getBalD (bal bal' : TokenBalances) (r : TokenRecord)
    (h : processPrivateRecord bal r = some bal') (k : String) :
    getBalD bal' k = getBalD bal k + privateContribution r k := by
  by_cases hc : r.program_id = "credits.aleo" ∧ truthy r.microcredits = true
  · by_cases hs : r.spent = true
    · rw [processPrivateRecord, if_pos hc, if_pos hs] at h
      injection h with h
      subst h
      simp [privateContribution, privateRecordKey, hs]
    · rw [processPrivateRecord, if_pos hc, if_neg hs] at h
      cases hj : jsBigInt? (splitHead "u64" (r.microcredits.getD "")) with
      | none => rw [hj] at h; simp at h
      | some ca =>
        rw [hj] at h
        simp only [Option.map_some', Option.some.injEq] at h
        subst h
        have hkey : privateRecordKey r = some "ALEO" := by
          simp [privateRecordKey, hs, hc]
        have hamt : privateRecordAmount r = ca := by
          simp [privateRecordAmount, hc, hj]
        by_cases hk : k = "ALEO"
        · subst hk
          simp [getBalD_setBal, privateContribution, hkey, hamt]
        · have hk2 : ¬("ALEO" = k) := fun hh => hk hh.symm
          simp [getBalD_setBal, hk, privateContribution, hkey, hk2]
  · by_cases hr : r.program_id = REGISTRY_PROGRAM_ID
    · by_cases hskip : r.spent = true ∨ r.token_id.isNone = true ∨ r.amount.isNone = true
      · rw [processPrivateRecord, if_neg hc, if_pos hr, if_pos hskip] at h
        injection h with h
        subst h
        have hkey : privateRecordKey r = none := by
          by_cases hs : r.spent = true
          · simp [privateRecordKey, hs]
          · rcases hskip with hx | hx | hx
            · exact absurd hx hs
            · rw [Option.isNone_iff_eq_none] at hx
              simp [privateRecordKey, hs, hc, hx]
            · rw [Option.isNone_iff_eq_none] at hx
              simp [privateRecordKey, hs, hc, hx]
        simp [privateContribution, hkey]
      · rw [processPrivateRecord, if_neg hc, if_pos hr, if_neg hskip] at h
        push_neg at hskip
        obtain ⟨hs, hti, ham⟩ := hskip
        cases hj : jsBigInt?
            ⟨(splitHead "." (r.amount.getD "")).toList.dropLast.dropLast.dropLast.dropLast⟩ with
        | none => rw [hj] at h; simp at h
        | some ta =>
          rw [hj] at h
          simp only [Option.map_some', Option.some.injEq] at h
          subst h
          have hkey : privateRecordKey r = some (splitHead "." (r.token_id.getD "")) := by
            have h1 : r.token_id.isSome = true := by
              cases hx : r.token_id with
              | none => exact absurd (by simp [hx]) hti
              | some v => simp
            have h2 : r.amount.isSome = true := by
              cases hx : r.amount with
              | none => exact absurd (by simp [hx]) ham
              | some v => simp
            have hne : ¬(REGISTRY_PROGRAM_ID = "credits.aleo") := by decide
            simp [privateRecordKey, hs, hr, hne, h1, h2]
          have hamt : privateRecordAmount r = ta := by
            simp only [String.toList] at hj
            simp [privateRecordAmount, hc, hj]
          by_cases hk : k = splitHead "." (r.token_id.getD "")
          · subst hk
            simp [getBalD_setBal, privateContribution, hkey, hamt]
          · have hk2 : ¬(splitHead "." (r.token_id.getD "") = k) := fun hh => hk hh.symm
            simp [getBalD_setBal, hk, privateContribution, hkey, hk2]
    · rw [processPrivateRecord, if_neg hc, if_neg hr] at h
      injection h with h
      subst h
      have hkey : privateRecordKey r = none := by
        by_cases hs : r.spent = true
        · simp [privateRecordKey, hs]
        · simp [privateRecordKey, hs, hc, hr]
      simp [privateContribution, hkey]

theorem foldlM_processPrivateRecord_getBalD (records : List TokenRecord) :
    ∀ bal0 bal, records.foldlM processPrivateRecord bal0 = some bal →
    ∀ k, getBalD bal k =
      getBalD bal0 k + (records.map (fun r => privateContribution r k)).sum := by
  induction records with
  | nil =>
    intro bal0 bal h k
    simp only [List.foldlM_nil, Option.pure_def, Option.some.injEq] at h
    subst h
    simp
  | cons r rs ih =>
    intro bal0 bal h k
    rw [List.foldlM_cons] at h
    cases hb : processPrivateRecord bal0 r with
    | none => rw [hb] at h; simp at h
    | some b1 =>
      rw [hb] at h
      simp only [Option.bind_eq_bind, Option.some_bind] at h
      have h1 := processPrivateRecord_getBalD _ _ _ hb k
      have h2 := ih b1 bal h k
      simp only [List.map_cons, List.sum_cons]
      omega

theorem insertLendDesc_perm (x : LendPosition) (l : List LendPosition) :
    (insertLendDesc x l).Perm (x :: l) := by
  induction l with
  | nil => simp [insertLendDesc]
  | cons y ys ih =>
    by_cases h : y.timestamp ≤ x.timestamp
    · simp [insertLendDesc, h]
    · simp only [insertLendDesc, if_neg h]
      exact (ih.cons y).trans (List.Perm.swap x y ys)

theorem sortLendsDesc_perm (l : List LendPosition) : (sortLendsDesc l).Perm l := by
  induction l with
  | nil => simp [sortLendsDesc]
  | cons x xs ih =>
    have : sortLendsDesc (x :: xs) = insertLendDesc x (sortLendsDesc xs) := rfl
    rw [this]
    exact (insertLendDesc_perm x (sortLendsDesc xs)).trans (ih.cons x)

theorem scanLendRecords_found (p : PendingLend) (lv : List LendPosition) :
    ∀ (l : List TokenRecord) (r : TokenRecord) (a : Nat),
    scanLendRecords p lv l = .found r a →
    r ∈ l ∧ r.id ≠ "" ∧ lv.any (fun lend => lend.id = r.id) = false ∧
      pendingLendRecordAmount r = some a ∧ a = p.amount := by
  intro l
  induction l with
  | nil => intro r a h; simp [scanLendRecords] at h
  | cons c rest ih =>
    intro r a h
    by_cases hid : c.id = ""
    · rw [scanLendRecords, if_pos hid] at h
      obtain ⟨h1, h2, h3, h4, h5⟩ := ih r a h
      exact ⟨List.mem_cons_of_mem c h1, h2, h3, h4, h5⟩
    · rw [scanLendRecords, if_neg hid] at h
      by_cases hany : lv.any (fun lend => lend.id = c.id) = true
      · rw [if_pos hany] at h
        obtain ⟨h1, h2, h3, h4, h5⟩ := ih r a h
        exact ⟨List.mem_cons_of_mem c h1, h2, h3, h4, h5⟩
      · rw [if_neg hany] at h
        split at h
        next => cases h
        next a' hj =>
          by_cases ha : a' = p.amount
          · rw [if_pos ha] at h
            injection h with hr ha'
            subst hr; subst ha'
            exact ⟨List.mem_cons_self c rest, hid, Bool.eq_false_iff.mpr hany, hj, ha⟩
          · rw [if_neg ha] at h
            obtain ⟨h1, h2, h3, h4, h5⟩ := ih r a h
            exact ⟨List.mem_cons_of_mem c h1, h2, h3, h4, h5⟩

theorem scanLendRecords_found_iff (p : PendingLend) (lv : List LendPosition)
    (l : List TokenRecord)
    (hid : ∀ r ∈ l, r.id ≠ "")
    (hwf : ∀ r ∈ l, (pendingLendRecordAmount r).isSome = true) :
    (∃ r a, scanLendRecords p lv l = .found r a) ↔
      ∃ r ∈ l, lv.any (fun lend => lend.id = r.id) = false ∧
        pendingLendRecordAmount r = some p.amount := by
  induction l with
  | nil => simp [scanLendRecords]
  | cons c rest ih =>
    have hidc : c.id ≠ "" := hid c (List.mem_cons_self c rest)
    have hid' : ∀ r ∈ rest, r.id ≠ "" := fun r hr => hid r (List.mem_cons_of_mem c hr)
    have hwf' : ∀ r ∈ rest, (pendingLendRecordAmount r).isSome = true :=
      fun r hr => hwf r (List.mem_cons_of_mem c hr)
    have ihr := ih hid' hwf'
    by_cases hany : lv.any (fun lend => lend.id = c.id) = true
    · constructor
      · intro ⟨r, a, h⟩
        rw [scanLendRecords, if_neg hidc, if_pos hany] at h
        obtain ⟨r, hr, h1, h2⟩ := ihr.mp ⟨r, a, h⟩
        exact ⟨r, List.mem_cons_of_mem c hr, h1, h2⟩
      · intro ⟨r, hr, h1, h2⟩
        rcases List.mem_cons.mp hr with hrc | hrr
        · subst hrc; rw [hany] at h1; cases h1
        · obtain ⟨r', a', h⟩ := ihr.mpr ⟨r, hrr, h1, h2⟩
          exact ⟨r', a', by rw [scanLendRecords, if_neg hidc, if_pos hany]; exact h⟩
    · obtain ⟨ac, hac⟩ : ∃ ac, pendingLendRecordAmount c = some ac := by
        have hwfc := hwf c (List.mem_cons_self c rest)
        cases hx : pendingLendRecordAmount c with
        | none => rw [hx] at hwfc; cases hwfc
        | some v => exact ⟨v, rfl⟩
      by_cases ha : ac = p.amount
      · constructor
        · intro _
          exact ⟨c, List.mem_cons_self c rest, Bool.eq_false_iff.mpr hany, ha ▸ hac⟩
        · intro _
          refine ⟨c, ac, ?_⟩
          simp [scanLendRecords, hidc, hany, hac, ha]
      · constructor
        · intro ⟨r, a, h⟩
          simp only [scanLendRecords, if_neg hidc, if_neg hany, hac, if_neg ha] at h
          obtain ⟨r, hr, h1, h2⟩ := ihr.mp ⟨r, a, h⟩
          exact ⟨r, List.mem_cons_of_mem c hr, h1, h2⟩
        · intro ⟨r, hr, h1, h2⟩
          rcases List.mem_cons.mp hr with hrc | hrr
          · subst hrc
            rw [hac] at h2
            injection h2 with h2
            exact absurd h2 ha
          · obtain ⟨r', a', h⟩ := ihr.mpr ⟨r, hrr, h1, h2⟩
            refine ⟨r', a', ?_⟩
            simp only [scanLendRecords, if_neg hidc, if_neg hany, hac, if_neg ha]
            exact h

theorem pollLendTick_matched (now startTime : Nat) (p : PendingLend)
    (pv : List PendingLend) (lv : List LendPosition) (records : List TokenRecord)
    (st : DashboardState) (q : PendingLend) (r : TokenRecord)
    (h : (pollLendTick now startTime p pv lv records st).matched = some (q, r)) :
    q = p ∧ r ∈ records ∧ avTokenFilter r = true ∧ r.id ≠ "" ∧
      lv.any (fun lend => lend.id = r.id) = false ∧
      pendingLendRecordAmount r = some p.amount := by
  rw [pollLendTick] at h
  by_cases ht : 180000 < now - startTime
  · rw [if_pos ht] at h; cases h
  · rw [if_neg ht] at h
    cases hs : scanLendRecords p lv (records.filter avTokenFilter) with
    | found r' a =>
      rw [hs] at h
      dsimp only at h
      simp only [Option.some.injEq, Prod.mk.injEq] at h
      obtain ⟨hq, hr⟩ := h
      subst hq
      subst hr
      obtain ⟨h1, h2, h3, h4, h5⟩ := scanLendRecords_found p lv _ _ _ hs
      obtain ⟨hmem, hflt⟩ := List.mem_filter.mp h1
      exact ⟨rfl, hmem, hflt, h2, h3, h5 ▸ h4⟩
    | threw => rw [hs] at h; dsimp only at h; cases h
    | noMatch => rw [hs] at h; dsimp only at h; cases h

theorem pollLendTick_state_matched (now startTime : Nat) (p : PendingLend)
    (pv : List PendingLend) (lv : List LendPosition) (records : List TokenRecord)
    (st : DashboardState) (q : PendingLend) (r : TokenRecord)
    (h : (pollLendTick now startTime p pv lv records st).matched = some (q, r)) :
    ((pollLendTick now startTime p pv lv records st).state.lends).Perm
        (mkLendPosition r p.amount :: st.lends) ∧
      (pollLendTick now startTime p pv lv records st).state.pendingLends
        = pv.filter (· ≠ p) ∧
      (pollLendTick now startTime p pv lv records st).state.privateBalances
        = st.privateBalances := by
  rw [pollLendTick] at h ⊢
  by_cases ht : 180000 < now - startTime
  · rw [if_pos ht] at h; cases h
  · rw [if_neg ht] at h ⊢
    cases hs : scanLendRecords p lv (records.filter avTokenFilter) with
    | found r' a =>
      rw [hs] at h
      dsimp only at h ⊢
      simp only [Option.some.injEq, Prod.mk.injEq] at h
      obtain ⟨hq, hr⟩ := h
      subst hq
      subst hr
      obtain ⟨_, _, _, _, h5⟩ := scanLendRecords_found p lv _ _ _ hs
      subst h5
      refine ⟨?_, rfl, rfl⟩
      exact (sortLendsDesc_perm _).trans (List.perm_append_singleton _ _)
    | threw => rw [hs] at h; dsimp only at h; cases h
    | noMatch => rw [hs] at h; dsimp only at h; cases h

theorem pollLendTick_state_unmatched (now startTime : Nat) (p : PendingLend)
    (pv : List PendingLend) (lv : List LendPosition) (records : List TokenRecord)
    (st : DashboardState)
    (h : (pollLendTick now startTime p pv lv records st).matched = none) :
    (pollLendTick now startTime p pv lv records st).state.lends = st.lends ∧
      ((pollLendTick now startTime p pv lv records st).state.pendingLends
          = st.pendingLends ∨
        (pollLendTick now startTime p pv lv records st).state.pendingLends
          = pv.filter (· ≠ p)) := by
  rw [pollLendTick] at h ⊢
  by_cases ht : 180000 < now - startTime
  · rw [if_pos ht] at h ⊢
    exact ⟨rfl, Or.inr rfl⟩
  · rw [if_neg ht] at h ⊢
    cases hs : scanLendRecords p lv (records.filter avTokenFilter) with
    | found r' a => rw [hs] at h; dsimp only at h; cases h
    | threw => rw [hs] at h; exact ⟨rfl, Or.inl rfl⟩
    | noMatch => rw [hs] at h; exact ⟨rfl, Or.inl rfl⟩

theorem lendStepSeq_matched (st : DashboardState) (e : LendEvent)
    (m : PendingLend × TokenRecord) (h : (lendStepSeq st e).2 = some m) :
    m.1 = e.p ∧ e.p ∈ st.pendingLends ∧
      ((lendStepSeq st e).1.lends).Perm (mkLendPosition m.2 e.p.amount :: st.lends) ∧
      m.2.id ∉ st.lends.map (fun l => l.id) ∧
      (lendStepSeq st e).1.pendingLends = st.pendingLends.filter (· ≠ e.p) := by
  by_cases hp : e.p ∈ st.pendingLends
  · rw [lendStepSeq, if_pos hp] at h ⊢
    dsimp only at h ⊢
    have h' : (pollLendTick e.now e.startTime e.p st.pendingLends st.lends
        e.records st).matched = some (m.1, m.2) := by rw [h]
    obtain ⟨hq, _, _, _, hany, _⟩ := pollLendTick_matched _ _ _ _ _ _ _ _ _ h'
    obtain ⟨hperm, hpend, _⟩ := pollLendTick_state_matched _ _ _ _ _ _ _ _ _ h'
    have hnotin : m.2.id ∉ st.lends.map (fun l => l.id) := by
      intro hmemx
      obtain ⟨x, hx, hxid⟩ := List.mem_map.mp hmemx
      have hx2 : st.lends.any (fun lend => lend.id = m.2.id) = true :=
        List.any_eq_true.mpr ⟨x, hx, by simp [hxid]⟩
      rw [hany] at hx2
      cases hx2
    exact ⟨hq, hp, hperm, hnotin, hpend⟩
  · rw [lendStepSeq, if_neg hp] at h
    cases h

theorem lendStepSeq_unmatched (st : DashboardState) (e : LendEvent)
    (h : (lendStepSeq st e).2 = none) :
    (lendStepSeq st e).1.lends = st.lends ∧
      ((lendStepSeq st e).1.pendingLends = st.pendingLends ∨
        (lendStepSeq st e).1.pendingLends = st.pendingLends.filter (· ≠ e.p)) := by
  by_cases hp : e.p ∈ st.pendingLends
  · rw [lendStepSeq, if_pos hp] at h ⊢
    dsimp only at h ⊢
    exact pollLendTick_state_unmatched _ _ _ _ _ _ _ h
  · rw [lendStepSeq, if_neg hp]
    exact ⟨rfl, Or.inl rfl⟩

theorem lendStepSeq_pending_sub (st : DashboardState) (e : LendEvent) :
    ∀ q ∈ (lendStepSeq st e).1.pendingLends, q ∈ st.pendingLends := by
  intro q hq
  cases hstep : (lendStepSeq st e).2 with
  | none =>
    obtain ⟨_, hpend⟩ := lendStepSeq_unmatched st e hstep
    rcases hpend with hs | hs
    · rwa [hs] at hq
    · rw [hs] at hq
      exact (List.mem_filter.mp hq).1
  | some m =>
    obtain ⟨_, _, _, _, hpend⟩ := lendStepSeq_matched st e m hstep
    rw [hpend] at hq
    exact (List.mem_filter.mp hq).1

theorem lendStepSeq_pending_nodup (st : DashboardState) (e : LendEvent)
    (h : st.pendingLends.Nodup) : (lendStepSeq st e).1.pendingLends.Nodup := by
  cases hstep : (lendStepSeq st e).2 with
  | none =>
    obtain ⟨_, hpend⟩ := lendStepSeq_unmatched st e hstep
    rcases hpend with hs | hs
    · rwa [hs]
    · rw [hs]
      exact h.filter _
  | some m =>
    obtain ⟨_, _, _, _, hpend⟩ := lendStepSeq_matched st e m hstep
    rw [hpend]
    exact h.filter _

theorem lendRunSeq_matched_mem (es : List LendEvent) :
    ∀ st : DashboardState, ∀ m ∈ (lendRunSeq st es).2, m.1 ∈ st.pendingLends := by
  induction es with
  | nil => intro st m hm; simp [lendRunSeq] at hm
  | cons e es ih =>
    intro st m hm
    rw [lendRunSeq] at hm
    dsimp only at hm
    rcases List.mem_append.mp hm with hcur | hrest
    · cases hstep : (lendStepSeq st e).2 with
      | none => rw [hstep] at hcur; simp at hcur
      | some mm =>
        rw [hstep] at hcur
        simp only [Option.toList_some, List.mem_singleton] at hcur
        subst hcur
        obtain ⟨hq, hp, _⟩ := lendStepSeq_matched st e m hstep
        rw [hq]
        exact hp
    · exact lendStepSeq_pending_sub st e m.1 (ih (lendStepSeq st e).1 m hrest)

theorem lendRunSeq_matched_pending_nodup (es : List LendEvent) :
    ∀ st : DashboardState, st.pendingLends.Nodup →
    ((lendRunSeq st es).2.map (fun m => m.1)).Nodup := by
  induction es with
  | nil => intro st _; simp [lendRunSeq]
  | cons e es ih =>
    intro st hnd
    rw [lendRunSeq]
    dsimp only
    cases hstep : (lendStepSeq st e).2 with
    | none =>
      simpa using ih (lendStepSeq st e).1 (lendStepSeq_pending_nodup st e hnd)
    | some m =>
      simp only [Option.toList_some, List.singleton_append, List.map_cons, List.nodup_cons]
      refine ⟨?_, ih (lendStepSeq st e).1 (lendStepSeq_pending_nodup st e hnd)⟩
      intro hmem
      obtain ⟨m', hm', hfst⟩ := List.mem_map.mp hmem
      have hm'pend := lendRunSeq_matched_mem es (lendStepSeq st e).1 m' hm'
      obtain ⟨hq, _, _, _, hpend⟩ := lendStepSeq_matched st e m hstep
      rw [hpend] at hm'pend
      have hneq : m'.1 ≠ e.p := by simpa using (List.mem_filter.mp hm'pend).2
      exact hneq (hfst.trans hq)

theorem lendRunSeq_matched_ids_nodup (es : List LendEvent) :
    ∀ st : DashboardState, (st.lends.map (fun l => l.id)).Nodup →
    (((lendRunSeq st es).2.map (fun m => m.2.id)) ++ st.lends.map (fun l => l.id)).Nodup := by
  induction es with
  | nil => intro st h; simpa [lendRunSeq] using h
  | cons e es ih =>
    intro st hnd
    rw [lendRunSeq]
    dsimp only
    cases hstep : (lendStepSeq st e).2 with
    | none =>
      obtain ⟨hl, _⟩ := lendStepSeq_unmatched st e hstep
      have hr := ih (lendStepSeq st e).1 (by rw [hl]; exact hnd)
      rw [hl] at hr
      simpa using hr
    | some m =>
      obtain ⟨hq, hp, hperm, hnotin, hpend⟩ := lendStepSeq_matched st e m hstep
      have hperm2 : ((lendStepSeq st e).1.lends.map (fun l => l.id)).Perm
          (m.2.id :: st.lends.map (fun l => l.id)) := by
        simpa [mkLendPosition] using hperm.map (fun l => l.id)
      have hnd' : ((lendStepSeq st e).1.lends.map (fun l => l.id)).Nodup :=
        (hperm2.nodup_iff).mpr (List.nodup_cons.mpr ⟨hnotin, hnd⟩)
      have hih := ih (lendStepSeq st e).1 hnd'
      have hall : ((lendRunSeq (lendStepSeq st e).1 es).2.map (fun mm => mm.2.id)
          ++ (m.2.id :: st.lends.map (fun l => l.id))).Nodup :=
        ((hperm2.append_left _).nodup_iff).mp hih
      simp only [Option.toList_some, List.singleton_append, List.map_cons, List.cons_append]
      exact (List.perm_middle.nodup_iff).mp hall

theorem sum_privateContribution_filter_unspent (records : List TokenRecord) (k : String) :
    ((records.filter (fun r => !r.spent)).map (fun r => privateContribution r k)).sum
      = (records.map (fun r => privateContribution r k)).sum := by
  induction records with
  | nil => simp
  | cons r rs ih =>
    by_cases hs : r.spent = true
    · simp [List.filter_cons, hs, ih, privateContribution_spent r hs k]
    · simp only [List.filter_cons, Bool.not_eq_true] at *
      simp [hs, ih]

/-! ## Helper lemmas about decimal rendering -/

theorem digitChar_ne_dot (d : Nat) : digitChar d ≠ '.' := by
  unfold digitChar
  split <;> decide

theorem natDecDigitsAux_ne_dot (fuel : Nat) :
    ∀ n, ∀ c ∈ natDecDigitsAux fuel n, c ≠ '.' := by
  induction fuel with
  | zero => intro n c hc; simp [natDecDigitsAux] at hc
  | succ fuel ih =>
    intro n c hc
    rw [natDecDigitsAux] at hc
    by_cases h : n < 10
    · rw [if_pos h] at hc
      simp only [List.mem_singleton] at hc
      subst hc
      exact digitChar_ne_dot n
    · rw [if_neg h] at hc
      rcases List.mem_append.mp hc with h1 | h2
      · exact ih (n / 10) c h1
      · simp only [List.mem_singleton] at h2
        subst h2
        exact digitChar_ne_dot (n % 10)

theorem natDecDigits_ne_dot (n : Nat) : ∀ c ∈ natDecDigits n, c ≠ '.' :=
  natDecDigitsAux_ne_dot (n + 1) n

/-! ## Claim theorems -/

/-- Claim C9: `formatBalance` renders a raw integer balance at the stated
decimals with exactly four displayed fractional digits (whenever the token
has at least four decimals, as all supported tokens do), reproduces zero and
the absent balance as `0.0000`, and in particular renders the raw integer
`1234567890` at six decimals as `"1234.5678"`. -/
theorem claim_C9 :
    formatBalance (some 1234567890) 6 = "1234.5678" ∧
    formatBalance (some 0) 6 = "0.0000" ∧
    formatBalance none 6 = "0.0000" ∧
    formatBalance (some 123) 6 = "0.0001" ∧
    (∀ b d, 4 ≤ d →
      ∃ w f : List Char, formatBalance (some b) d = ⟨w ++ '.' :: f⟩ ∧ w ≠ [] ∧
        f.length = 4 ∧ (∀ c ∈ w, c ≠ '.') ∧ (∀ c ∈ f, c ≠ '.')) := by
  refine ⟨by decide, by decide, by decide, by decide, ?_⟩
  intro b d hd
  by_cases hb : b = 0
  · subst hb
    refine ⟨['0'], ['0', '0', '0', '0'], rfl, by decide, by decide, by decide, by decide⟩
  · have hd0 : 0 < d := by omega
    rw [formatBalance, if_neg hb]
    set s := natDecDigits b with hs
    set len := s.length with hlen
    set whole := if 0 < d ∧ d < len then s.take (len - d) else ['0'] with hwhole
    set decTail := if d = 0 then s else s.drop (len - min d len) with hdecTail
    set padded := List.replicate (d - decTail.length) '0' ++ decTail with hpadded
    refine ⟨whole, padded.take 4, rfl, ?_, ?_, ?_, ?_⟩
    · rw [hwhole]
      by_cases hcase : 0 < d ∧ d < len
      · rw [if_pos hcase]
        have : (s.take (len - d)).length = len - d := by
          rw [List.length_take]
          omega
        intro hempty
        rw [hempty] at this
        simp at this
        omega
      · rw [if_neg hcase]
        simp
    · have hdt : decTail.length = min d len := by
        rw [hdecTail, if_neg (by omega)]
        rw [List.length_drop]
        omega
      have hp : padded.length = d := by
        rw [hpadded, List.length_append, List.length_replicate, hdt]
        omega
      rw [List.length_take, hp]
      omega
    · intro c hc
      rw [hwhole] at hc
      by_cases hcase : 0 < d ∧ d < len
      · rw [if_pos hcase] at hc
        exact natDecDigits_ne_dot b c (List.mem_of_mem_take hc)
      · rw [if_neg hcase] at hc
        simp only [List.mem_singleton] at hc
        subst hc
        decide
    · intro c hc
      have hc2 := List.mem_of_mem_take hc
      rw [hpadded] at hc2
      rcases List.mem_append.mp hc2 with h1 | h2
      · have := List.eq_of_mem_replicate h1
        subst this
        decide
      · rw [hdecTail, if_neg (by omega)] at h2
        exact natDecDigits_ne_dot b c (List.mem_of_mem_drop h2)

/-- Claim C9 witness: the universally quantified clause instantiated at a
value requiring left padding. -/
theorem claim_C9_witness :
    ∃ w f : List Char, formatBalance (some 123) 6 = ⟨w ++ '.' :: f⟩ ∧ w ≠ [] ∧
      f.length = 4 ∧ (∀ c ∈ w, c ≠ '.') ∧ (∀ c ∈ f, c ≠ '.') :=
  claim_C9.2.2.2.2 123 6 (by decide)

/-- Claim C10: `getPrivateBalances` sums amounts only over unspent records:
whenever the computation succeeds, every token key holds the sum of the
parsed contributions of the unspent records, and dropping the spent records
from the input leaves every computed balance unchanged. -/
theorem claim_C10 (records : List TokenRecord) (bal bal2 : TokenBalances)
    (h : getPrivateBalances records = some bal)
    (h2 : getPrivateBalances (records.filter (fun r => !r.spent)) = some bal2) :
    ∀ k, getBalD bal k =
        ((records.filter (fun r => !r.spent)).map (fun r => privateContribution r k)).sum ∧
      getBalD bal k = getBalD bal2 k := by
  intro k
  have ha := foldlM_processPrivateRecord_getBalD records [] bal h k
  have hb := foldlM_processPrivateRecord_getBalD (records.filter (fun r => !r.spent)) [] bal2 h2 k
  have hzero : getBalD ([] : TokenBalances) k = 0 := rfl
  rw [hzero] at ha hb
  constructor
  · rw [ha, sum_privateContribution_filter_unspent]
    omega
  · rw [ha, hb, sum_privateContribution_filter_unspent]

/-- Claim C10 witness: a record list with one unspent and one spent vUSDG
record; the spent record contributes nothing. -/
theorem claim_C10_witness :
    getBalD [(vUSDG_TOKEN_ID, (100 : Int))] vUSDG_TOKEN_ID =
        (([sampleUSDGRecord, sampleSpentRecord].filter (fun r => !r.spent)).map
          (fun r => privateContribution r vUSDG_TOKEN_ID)).sum ∧
      getBalD [(vUSDG_TOKEN_ID, (100 : Int))] vUSDG_TOKEN_ID
        = getBalD [(vUSDG_TOKEN_ID, (100 : Int))] vUSDG_TOKEN_ID :=
  claim_C10 [sampleUSDGRecord, sampleSpentRecord]
    [(vUSDG_TOKEN_ID, (100 : Int))] [(vUSDG_TOKEN_ID, (100 : Int))]
    (by decide) (by decide) vUSDG_TOKEN_ID

/-- Claim C6 (counterexample): the loan-id reader is a Domain Reader in the
claim's list, yet on a null RPC result it returns the default loan id `1`,
not a zero value, so the claim as stated is false. -/
theorem claim_C6_counterexample :
    getNextLoanId (.response false none) = 1 ∧ (1 : Nat) ≠ 0 := by
  exact ⟨by decide, by decide⟩

/-- Claim C6 (amended): every Domain Reader returns its documented default
and never throws, on every failure outcome (network or JSON throw, error
response, null result, unparsable payload): the balance, totals, APY and
rewards readers default to zero, the loan-details record lookup defaults to
`null`, and the next-loan-id reader defaults to `1` (not zero). Totality of
the Lean functions models the absence of exceptions. -/
theorem claim_C6_amended :
    (getPublicBalance .netFail = 0) ∧
    (∀ res, getPublicBalance (.response true res) = 0) ∧
    (getPublicBalance (.response false none) = 0) ∧
    (∀ s, extractFirstNat "balance: " "u128" s = none →
      getPublicBalance (.response false (some s)) = 0) ∧
    (getAleoBalance .netFail = 0) ∧
    (∀ res, getAleoBalance (.response true res) = 0) ∧
    (getAleoBalance (.response false none) = 0) ∧
    (∀ s, extractFirstNat "" "u64" s = none → getAleoBalance (.response false (some s)) = 0) ∧
    (∀ o, getLendingTotals .netFail o = ⟨0, 0⟩) ∧
    (∀ o, getLendingTotals o .netFail = ⟨0, 0⟩) ∧
    (∀ e1 e2, getLendingTotals (.response e1 none) (.response e2 none) = ⟨0, 0⟩) ∧
    (∀ e1 e2 s1 s2, extractFirstNat "" "u128" s1 = none → extractFirstNat "" "u128" s2 = none →
      getLendingTotals (.response e1 (some s1)) (.response e2 (some s2)) = ⟨0, 0⟩) ∧
    (getLendingAPY .netFail = 0) ∧
    (∀ res, getLendingAPY (.response true res) = 0) ∧
    (getLendingAPY (.response false none) = 0) ∧
    (∀ s, extractFirstNat "apy: " "u64" s = none → getLendingAPY (.response false (some s)) = 0) ∧
    (getLendingRewards .netFail = 0) ∧
    (∀ res, getLendingRewards (.response true res) = 0) ∧
    (getLendingRewards (.response false none) = 0) ∧
    (∀ s, extractFirstNat "reward: " "u128" s = none →
      getLendingRewards (.response false (some s)) = 0) ∧
    (getNextLoanId .netFail = 1) ∧
    (∀ res, getNextLoanId (.response true res) = 1) ∧
    (getNextLoanId (.response false none) = 1) ∧
    (∀ s, extractFirstNat "" "u32" s = none → getNextLoanId (.response false (some s)) = 1) ∧
    (∀ loanId o, extractFirstNat "" "u32" loanId = none → getPublicLoanDetails loanId o = none) ∧
    (∀ loanId, getPublicLoanDetails loanId .netFail = none) ∧
    (∀ loanId res, getPublicLoanDetails loanId (.response true res) = none) ∧
    (∀ loanId, getPublicLoanDetails loanId (.response false none) = none) ∧
    (∀ loanId s, parseLoanPublic s = none →
      getPublicLoanDetails loanId (.response false (some s)) = none) := by
  refine ⟨rfl, fun res => rfl, rfl, ?_, rfl, fun res => rfl, rfl, ?_,
    fun o => rfl, ?_, fun e1 e2 => rfl, ?_,
    rfl, fun res => rfl, rfl, ?_, rfl, fun res => rfl, rfl, ?_,
    rfl, fun res => rfl, rfl, ?_, ?_, ?_, ?_, ?_, ?_⟩
  · intro s hs
    simp [getPublicBalance, hs]
  · intro s hs
    simp [getAleoBalance, hs]
  · intro o
    cases o with
    | netFail => rfl
    | response e res => simp [getLendingTotals, totalsFieldValue]
  · intro e1 e2 s1 s2 h1 h2
    simp [getLendingTotals, totalsFieldValue, h1, h2]
  · intro s hs
    simp [getLendingAPY, hs]
  · intro s hs
    simp [getLendingRewards, hs]
  · intro s hs
    simp [getNextLoanId, hs]
  · intro loanId o h
    cases o with
    | netFail => simp [getPublicLoanDetails, h]
    | response e res => simp [getPublicLoanDetails, h]
  · intro loanId
    simp [getPublicLoanDetails]
    split <;> rfl
  · intro loanId res
    simp [getPublicLoanDetails]
    split <;> rfl
  · intro loanId
    simp [getPublicLoanDetails]
    split <;> rfl
  · intro loanId s hs
    cases hx : extractFirstNat "" "u32" loanId with
    | none => simp [getPublicLoanDetails, hx]
    | some v => simp [getPublicLoanDetails, hx, hs]

/-- Claim C6 witness: the quantified failure clauses instantiated at an
unparsable payload and a malformed loan id. -/
theorem claim_C6_witness :
    getPublicBalance (.response false (some "garbage")) = 0 ∧
    getLendingTotals (.response false (some "garbage")) (.response false (some "garbage"))
      = ⟨0, 0⟩ ∧
    getNextLoanId (.response false (some "garbage")) = 1 ∧
    getPublicLoanDetails "not-an-id" (.response false (some "anything")) = none :=
  ⟨claim_C6_amended.2.2.2.1 "garbage" (by decide),
    claim_C6_amended.2.2.2.2.2.2.2.2.2.2.2.1 false false "garbage" "garbage"
      (by decide) (by decide),
    (claim_C6_amended.2.2.2.2.2.2.2.2.2.2.2.2.2.2.2.2.2.2.2.2.2.2.2.1) "garbage" (by decide),
    (claim_C6_amended.2.2.2.2.2.2.2.2.2.2.2.2.2.2.2.2.2.2.2.2.2.2.2.2.1) "not-an-id"
      (.response false (some "anything")) (by decide)⟩

/-- Claim C7 (counterexample): with the block-height read succeeding but both
totals reads failing (network throw), the lend builder still assembles a
complete transaction payload, with the totals inputs silently zeroed —
because `getLendingTotals` never raises, a build proceeds although one of
its required fresh reads did not succeed, contradicting the claim. -/
theorem claim_C7_counterexample :
    prepareLendingTransaction vUSDG_TOKEN_ID 500000 "aleo1user" sampleUSDGRecord
        (.body "100") .netFail .netFail =
      .ok
        { address := "aleo1user"
          chainId := "testnetbeta"
          transitions :=
            [{ program := LENDING_PROGRAM_ID
               functionName := "lend"
               inputs :=
                 [.recordInput sampleUSDGRecord, .strInput "500000u128", .strInput "100u32",
                  .strInput "0u128", .strInput "0u128"] }]
          fee := FEE_AMOUNT
          feePrivate := false } ∧
    getLendingTotals .netFail .netFail = ⟨0, 0⟩ := by
  exact ⟨rfl, by decide⟩

/-- Claim C7 (amended): the lend and redeem builders perform their chain
reads at build time and embed the freshly read values into the assembled
inputs; a failed block-height read propagates to the caller and aborts the
build, but the totals reads never raise (they fail closed to the zero pair),
so a payload can still be assembled after a failed totals read. -/
theorem claim_C7_amended :
    (∀ (token_id : String) (amount : Nat) (publicKey : String) (tokenRecord : TokenRecord)
        (ho : HeightOutcome) (o1 o2 : RpcOutcome) (e : String),
      (token_id = vUSDG_TOKEN_ID ∨ token_id = vUSDQ_TOKEN_ID) →
      getBlockHeight ho = .error e →
      prepareLendingTransaction token_id amount publicKey tokenRecord ho o1 o2 = .error e) ∧
    (∀ (lendingProof : LendingProof) (publicKey programId : String)
        (ho : HeightOutcome) (o1 o2 : RpcOutcome) (e : String),
      getBlockHeight ho = .error e →
      prepareRedeemTransaction lendingProof publicKey programId ho o1 o2 = .error e) ∧
    (∀ (token_id : String) (amount : Nat) (publicKey : String) (tokenRecord : TokenRecord)
        (ho : HeightOutcome) (o1 o2 : RpcOutcome) (bh : Nat),
      (token_id = vUSDG_TOKEN_ID ∨ token_id = vUSDQ_TOKEN_ID) →
      getBlockHeight ho = .ok bh →
      prepareLendingTransaction token_id amount publicKey tokenRecord ho o1 o2 =
        .ok
          { address := publicKey
            chainId := "testnetbeta"
            transitions :=
              [{ program := getProgramIdForToken token_id
                 functionName := "lend"
                 inputs :=
                   [.recordInput tokenRecord,
                    .strInput (natToString amount ++ "u128"),
                    .strInput (natToString bh ++ "u32"),
                    .strInput (natToString (getLendingTotals o1 o2).supplied ++ "u128"),
                    .strInput (natToString (getLendingTotals o1 o2).borrowed ++ "u128")] }]
            fee := FEE_AMOUNT
            feePrivate := false }) := by
  refine ⟨?_, ?_, ?_⟩
  · intro token_id amount publicKey tokenRecord ho o1 o2 e hvalid herr
    have hne : ¬(token_id ≠ vUSDG_TOKEN_ID ∧ token_id ≠ vUSDQ_TOKEN_ID) := by
      rcases hvalid with h | h <;> simp [h]
    rw [prepareLendingTransaction, if_neg hne, herr]
  · intro lendingProof publicKey programId ho o1 o2 e herr
    rw [prepareRedeemTransaction, herr]
  · intro token_id amount publicKey tokenRecord ho o1 o2 bh hvalid hok
    have hne : ¬(token_id ≠ vUSDG_TOKEN_ID ∧ token_id ≠ vUSDQ_TOKEN_ID) := by
      rcases hvalid with h | h <;> simp [h]
    rw [prepareLendingTransaction, if_neg hne, hok]

/-- Claim C7 witness: the amended theorem applied at a failing height read
and at a successful one. -/
theorem claim_C7_witness :
    prepareLendingTransaction vUSDG_TOKEN_ID 7 "aleo1user" sampleUSDGRecord
        .httpFail (.response false (some "5u128")) (.response false (some "3u128"))
      = .error "HTTP error getting block height" ∧
    prepareRedeemTransaction
        { id := "av1", owner := "aleo1user", amount := "500000u128",
          timestamp := "5u32", apy_snapshot := "300u128" }
        "aleo1user" LENDING_PROGRAM_ID (.body "") .netFail .netFail
      = .error "Empty block height response from Aleo Public API" :=
  ⟨claim_C7_amended.1 vUSDG_TOKEN_ID 7 "aleo1user" sampleUSDGRecord .httpFail
      (.response false (some "5u128")) (.response false (some "3u128"))
      "HTTP error getting block height" (Or.inl rfl) rfl,
    claim_C7_amended.2.1
      { id := "av1", owner := "aleo1user", amount := "500000u128",
        timestamp := "5u32", apy_snapshot := "300u128" }
      "aleo1user" LENDING_PROGRAM_ID (.body "") .netFail .netFail
      "Empty block height response from Aleo Public API" rfl⟩

/-- Claim C8: the record-matching confirmation polls (pending lend and
pending borrow) always reschedule themselves after a fixed 5000 ms, while the
balance-only reconciliation poll uses the adaptive schedule 2000 ms for
attempts one to three, 3000 ms for attempts four to six, and 5000 ms from
attempt seven on. -/
theorem claim_C8 :
    (∀ (now startTime : Nat) (p : PendingLend) (pv : List PendingLend)
        (lv : List LendPosition) (records : List TokenRecord) (st : DashboardState) (d : Nat),
      (pollLendTick now startTime p pv lv records st).nextDelayMs = some d → d = 5000) ∧
    (∀ (now startTime : Nat) (pb : PendingBorrow) (pv : List PendingBorrow)
        (bv : List BorrowPosition) (records : List TokenRecord)
        (details : String → RpcOutcome) (st : DashboardState) (d : Nat),
      (pollBorrowTick now startTime pb pv bv records details st).nextDelayMs = some d →
        d = 5000) ∧
    (∀ attempt, 1 ≤ attempt → attempt ≤ 3 → pollTokenBalanceInterval attempt = 2000) ∧
    (∀ attempt, 4 ≤ attempt → attempt ≤ 6 → pollTokenBalanceInterval attempt = 3000) ∧
    (∀ attempt, 7 ≤ attempt → pollTokenBalanceInterval attempt = 5000) := by
  refine ⟨?_, ?_, ?_, ?_, ?_⟩
  · intro now startTime p pv lv records st d h
    rw [pollLendTick] at h
    by_cases ht : 180000 < now - startTime
    · rw [if_pos ht] at h; cases h
    · rw [if_neg ht] at h
      cases hs : scanLendRecords p lv (records.filter avTokenFilter) with
      | found r a => rw [hs] at h; dsimp only at h; cases h
      | threw => rw [hs] at h; dsimp only at h; injection h with h; exact h.symm
      | noMatch => rw [hs] at h; dsimp only at h; injection h with h; exact h.symm
  · intro now startTime pb pv bv records details st d h
    rw [pollBorrowTick] at h
    by_cases ht : 180000 < now - startTime
    · rw [if_pos ht] at h; cases h
    · rw [if_neg ht] at h
      cases hs : scanBorrowRecords pb bv details (records.filter loanPrivateFilter) with
      | none => rw [hs] at h; dsimp only at h; injection h with h; exact h.symm
      | some ld => rw [hs] at h; dsimp only at h; cases h
  · intro attempt h1 h3
    rw [pollTokenBalanceInterval, if_pos h3]
  · intro attempt h4 h6
    rw [pollTokenBalanceInterval, if_neg (by omega), if_pos h6]
  · intro attempt h7
    rw [pollTokenBalanceInterval, if_neg (by omega), if_neg (by omega)]

/-- Claim C8 witness: a rescheduling lend poll iteration (no matching record)
and the three regimes of the adaptive schedule at concrete attempts. -/
theorem claim_C8_witness :
    (5000 : Nat) = 5000 ∧ pollTokenBalanceInterval 2 = 2000 ∧
      pollTokenBalanceInterval 5 = 3000 ∧ pollTokenBalanceInterval 9 = 5000 :=
  ⟨claim_C8.1 1000 0 samplePendingA [samplePendingA] [] [] { pendingLends := [samplePendingA] }
      5000 (by decide),
    claim_C8.2.2.1 2 (by decide) (by decide),
    claim_C8.2.2.2.1 5 (by decide) (by decide),
    claim_C8.2.2.2.2 9 (by decide)⟩

/-- Claim C1 (counterexample): a lend of 60 is submitted against a displayed
private balance of 100 (optimistically debited to 40) while the wallet still
reports the unspent 100-unit record; when the confirmation poll hits the
180-second budget it removes the pending entry but leaves the displayed
balance at the stale optimistic 40, although a fresh authoritative read of
the wallet records yields 100 — so after timeout the displayed balance does
remain equal to the stale optimistic value, contradicting the claim. -/
theorem claim_C1_counterexample :
    (pollLendTick 180001 0 { amount := 60, timestamp := 1000, transactionId := "tx1" }
        [{ amount := 60, timestamp := 1000, transactionId := "tx1" }] [] []
        (handleLendSuccess vUSDG_TOKEN_ID 60 1000 "tx1"
          { privateBalances := [(vUSDG_TOKEN_ID, 100)] })).state.pendingLends = [] ∧
    getBalD (pollLendTick 180001 0 { amount := 60, timestamp := 1000, transactionId := "tx1" }
        [{ amount := 60, timestamp := 1000, transactionId := "tx1" }] [] []
        (handleLendSuccess vUSDG_TOKEN_ID 60 1000 "tx1"
          { privateBalances := [(vUSDG_TOKEN_ID, 100)] })).state.privateBalances
        vUSDG_TOKEN_ID = 40 ∧
    (getPrivateBalances [sampleUSDGRecord]).map (fun b => getBalD b vUSDG_TOKEN_ID)
      = some 100 ∧
    (40 : Int) ≠ 100 := by
  exact ⟨by decide, by decide, by decide, by decide⟩

/-- Claim C1 (amended): when the confirmation poll of a pending lend or a
pending borrow reaches the 180-second timeout, it removes the pending entry
from the visible pending set and stops, but performs no authoritative
balance read: every balance, including the one the submission optimistically
mutated, is left unchanged by the timeout transition. -/
theorem claim_C1_amended (now startTime : Nat) (p : PendingLend) (pb : PendingBorrow)
    (pendingView : List PendingLend) (pendingBorrowView : List PendingBorrow)
    (lendsView : List LendPosition) (borrowsView : List BorrowPosition)
    (records : List TokenRecord) (details : String → RpcOutcome) (st : DashboardState)
    (h : 180000 < now - startTime) :
    (pollLendTick now startTime p pendingView lendsView records st).state
      = { st with pendingLends := pendingView.filter (· ≠ p) } ∧
    (pollLendTick now startTime p pendingView lendsView records st).state.privateBalances
      = st.privateBalances ∧
    (pollLendTick now startTime p pendingView lendsView records st).nextDelayMs = none ∧
    (pollBorrowTick now startTime pb pendingBorrowView borrowsView records details st).state
      = { st with pendingBorrows := pendingBorrowView.filter (· ≠ pb) } ∧
    (pollBorrowTick now startTime pb pendingBorrowView borrowsView records
        details st).state.privateBalances = st.privateBalances := by
  rw [pollLendTick, pollBorrowTick, if_pos h, if_pos h]
  exact ⟨rfl, rfl, rfl, rfl, rfl⟩

/-- Claim C1 witness: the amended theorem applied one millisecond past the
timeout budget. -/
theorem claim_C1_witness :
    (pollLendTick 180001 0 samplePendingA [samplePendingA] [] []
        { privateBalances := [(vUSDG_TOKEN_ID, 40)] }).state
      = { privateBalances := [(vUSDG_TOKEN_ID, 40)], pendingLends := [] } ∧
    (pollLendTick 180001 0 samplePendingA [samplePendingA] [] []
        { privateBalances := [(vUSDG_TOKEN_ID, 40)] }).state.privateBalances
      = [(vUSDG_TOKEN_ID, 40)] := by
  have h := claim_C1_amended 180001 0 samplePendingA
    { tokenId := vUSDG_TOKEN_ID, amount := 1, timestamp := 1, collateralAmount := 1,
      collateralTokenId := WALEO_TOKEN_ID, transactionId := "txb" }
    [samplePendingA] [] [] [] [] (fun _ => .netFail)
    { privateBalances := [(vUSDG_TOKEN_ID, 40)] } (by decide)
  refine ⟨?_, h.2.1⟩
  rw [h.1]
  decide

/-- Claim C2 (counterexample): two pending lends with the same amount whose
poll closures both observe the active-lends view captured when their effect
generation started (the second iteration runs before the state update
propagates, a schedule the browser event loop permits): both iterations
claim the same receipt record, so one confirmed record is matched to two
different pending operations and the active list ends up with a duplicated
position — the claim fails under this interleaving. -/
theorem claim_C2_counterexample :
    staleViewTick1.matched = some (samplePendingA, sampleAvRecord) ∧
    staleViewTick2.matched = some (samplePendingB, sampleAvRecord) ∧
    samplePendingA ≠ samplePendingB ∧
    staleViewTick2.state.lends.map (fun l => l.id) = ["av1", "av1"] := by
  exact ⟨by decide, by decide, by decide, by decide⟩

/-- Claim C2 (amended): each poll iteration claims at most one record per
pending operation and skips records present in its observed active-lends
view; consequently, in any sequential execution — every iteration observing
the current state, which holds whenever effect re-runs separate the
iterations — no pending operation is matched twice and no record id is ever
claimed by two matches or duplicated into the active set. Under the stale
captured views that concurrent same-generation iterations can observe, two
pending operations with equal amounts can still claim the same record. -/
theorem claim_C2_amended (st : DashboardState) (es : List LendEvent)
    (h1 : (st.lends.map (fun l => l.id)).Nodup) (h2 : st.pendingLends.Nodup) :
    ((lendRunSeq st es).2.map (fun m => m.1)).Nodup ∧
    (((lendRunSeq st es).2.map (fun m => m.2.id)) ++ st.lends.map (fun l => l.id)).Nodup :=
  ⟨lendRunSeq_matched_pending_nodup es st h2, lendRunSeq_matched_ids_nodup es st h1⟩

/-- Claim C2 witness: the amended theorem applied to the two-pending-lend
scenario run sequentially; the second iteration then observes the updated
active list and does not re-match the record. -/
theorem claim_C2_witness :
    ((lendRunSeq { pendingLends := [samplePendingA, samplePendingB] }
        [{ now := 1000, startTime := 0, p := samplePendingA, records := [sampleAvRecord] },
          { now := 2000, startTime := 0, p := samplePendingB,
            records := [sampleAvRecord] }]).2.map (fun m => m.1)).Nodup ∧
    (((lendRunSeq { pendingLends := [samplePendingA, samplePendingB] }
        [{ now := 1000, startTime := 0, p := samplePendingA, records := [sampleAvRecord] },
          { now := 2000, startTime := 0, p := samplePendingB,
            records := [sampleAvRecord] }]).2.map (fun m => m.2.id)) ++
      (({ pendingLends := [samplePendingA, samplePendingB] } :
          DashboardState).lends.map (fun l => l.id))).Nodup :=
  claim_C2_amended { pendingLends := [samplePendingA, samplePendingB] }
    [{ now := 1000, startTime := 0, p := samplePendingA, records := [sampleAvRecord] },
      { now := 2000, startTime := 0, p := samplePendingB, records := [sampleAvRecord] }]
    (by decide) (by decide)

/-- Claim C3: during a poll iteration inside the timeout budget, a pending
lend is confirmed exactly when the records contain an unspent lend receipt
(record name `avUSDG` or `avUSDQ`, with a nonempty id — the well-formedness
hypotheses — and a parseable amount) whose amount equals the pending amount
and whose id is not already in the observed active-lends set; and on
confirmation the new position enters the active lends while the pending
entry leaves the pending set. -/
theorem claim_C3 (now startTime : Nat) (p : PendingLend)
    (pendingView : List PendingLend) (lendsView : List LendPosition)
    (records : List TokenRecord) (st : DashboardState)
    (hin : now - startTime ≤ 180000)
    (hid : ∀ r ∈ records, r.id ≠ "")
    (hwf : ∀ r ∈ records, (pendingLendRecordAmount r).isSome = true) :
    ((pollLendTick now startTime p pendingView lendsView records st).matched.isSome = true ↔
      ∃ r ∈ records, avTokenFilter r = true ∧
        lendsView.any (fun lend => lend.id = r.id) = false ∧
        pendingLendRecordAmount r = some p.amount) ∧
    (∀ q r, (pollLendTick now startTime p pendingView lendsView records st).matched
        = some (q, r) →
      mkLendPosition r p.amount ∈
          (pollLendTick now startTime p pendingView lendsView records st).state.lends ∧
        p ∉ (pollLendTick now startTime p pendingView lendsView records st).state.pendingLends) := by
  have ht : ¬(180000 < now - startTime) := by omega
  constructor
  · constructor
    · intro hsome
      rw [pollLendTick, if_neg ht] at hsome
      cases hs : scanLendRecords p lendsView (records.filter avTokenFilter) with
      | found r a =>
        obtain ⟨h1, _, h3, h4, h5⟩ := scanLendRecords_found p lendsView _ r a hs
        obtain ⟨hmem, hflt⟩ := List.mem_filter.mp h1
        exact ⟨r, hmem, hflt, h3, h5 ▸ h4⟩
      | threw => rw [hs] at hsome; dsimp only at hsome; simp at hsome
      | noMatch => rw [hs] at hsome; dsimp only at hsome; simp at hsome
    · intro ⟨r, hmem, hflt, hany, hamt⟩
      have hid' : ∀ x ∈ records.filter avTokenFilter, x.id ≠ "" :=
        fun x hx => hid x (List.mem_filter.mp hx).1
      have hwf' : ∀ x ∈ records.filter avTokenFilter, (pendingLendRecordAmount x).isSome = true :=
        fun x hx => hwf x (List.mem_filter.mp hx).1
      obtain ⟨r', a', hs⟩ :=
        (scanLendRecords_found_iff p lendsView (records.filter avTokenFilter)
            hid' hwf').mpr
          ⟨r, List.mem_filter.mpr ⟨hmem, hflt⟩, hany, hamt⟩
      rw [pollLendTick, if_neg ht, hs]
      rfl
  · intro q r h
    obtain ⟨hperm, hpend, _⟩ :=
      pollLendTick_state_matched now startTime p pendingView lendsView records st q r h
    constructor
    · exact (hperm.mem_iff).mpr (List.mem_cons_self _ _)
    · rw [hpend]
      intro hmembad
      have hcontra := (List.mem_filter.mp hmembad).2
      simp at hcontra

/-- Claim C3 witness: the confirmation equivalence applied to one pending
lend and one matching unspent avUSDG receipt. -/
theorem claim_C3_witness :
    (pollLendTick 1000 0 samplePendingA [samplePendingA] [] [sampleAvRecord]
        { pendingLends := [samplePendingA] }).matched.isSome = true :=
  (claim_C3 1000 0 samplePendingA [samplePendingA] [] [sampleAvRecord]
      { pendingLends := [samplePendingA] } (by decide) (by decide) (by decide)).1.mpr
    ⟨sampleAvRecord, by decide, by decide, by decide, by decide⟩

/-- Claim C4 (counterexample): with pre-submission borrowed total 600, a
borrow of 100 is submitted (displayed borrowed total optimistically becomes
700); the periodic totals refresh then reads an authoritative borrowed total
of only 100 — strictly below the pre-submission total plus the borrow amount
(700) — yet it clears the optimistic state and adopts the totals, because
its threshold is computed from the totals captured at callback creation (the
initial zero pair, its dependency list being empty), not the pre-submission
totals. The optimistic state is therefore cleared by a read that does not
satisfy the claim's condition, refuting the stated "exactly when". -/
theorem claim_C4_counterexample :
    (handleBorrowSuccess 100
        { lendingTotals := ⟨2000000, 600⟩, optimisticAvailable := none,
          lastBorrowAmount := none }).lendingTotals.borrowed = 700 ∧
    (loadLendingTotalsStep ⟨0, 0⟩ (.response false (some "2000000u128"))
        (.response false (some "100u128"))
        (handleBorrowSuccess 100
          { lendingTotals := ⟨2000000, 600⟩, optimisticAvailable := none,
            lastBorrowAmount := none })).optimisticAvailable = none ∧
    (loadLendingTotalsStep ⟨0, 0⟩ (.response false (some "2000000u128"))
        (.response false (some "100u128"))
        (handleBorrowSuccess 100
          { lendingTotals := ⟨2000000, 600⟩, optimisticAvailable := none,
            lastBorrowAmount := none })).lastBorrowAmount = none ∧
    getLendingTotals (.response false (some "2000000u128"))
        (.response false (some "100u128")) = ⟨2000000, 100⟩ ∧
    ¬(600 + 100 ≤ 100) := by
  exact ⟨by decide, by decide, by decide, by decide, by decide⟩

/-- Claim C4 (amended): submitting a borrow of amount A immediately
increments the displayed borrowed total by A and stores the optimistic
available override; the dedicated confirmation poll adopts the authoritative
totals and clears the optimistic state exactly when a fresh read reports a
borrowed total of at least the pre-submission borrowed total plus A, while
its timeout clears only the remembered amount; the periodic totals refresh
always adopts the fresh totals but clears the optimistic state when the
fresh borrowed total reaches the borrowed total captured by its closure
(the initial totals, as the callback is created once) plus A — a threshold
that can differ from the pre-submission one. -/
theorem claim_C4_amended :
    (∀ (amount : Nat) (st : BorrowTotalsState),
      (handleBorrowSuccess amount st).lendingTotals.borrowed
          = st.lendingTotals.borrowed + amount ∧
        (handleBorrowSuccess amount st).lendingTotals.supplied = st.lendingTotals.supplied ∧
        (handleBorrowSuccess amount st).optimisticAvailable
          = some ((st.lendingTotals.supplied : Int) - (st.lendingTotals.borrowed : Int)
              - (amount : Int)) ∧
        (handleBorrowSuccess amount st).lastBorrowAmount = some amount) ∧
    (∀ (pre : LendingTotals) (amount now startTime : Nat) (o1 o2 : RpcOutcome)
        (st : BorrowTotalsState), now - startTime ≤ 180000 →
      (pre.borrowed + amount ≤ (getLendingTotals o1 o2).borrowed →
        borrowConfirmPollStep pre amount now startTime o1 o2 st =
          ({ lendingTotals := getLendingTotals o1 o2, optimisticAvailable := none,
              lastBorrowAmount := none }, none)) ∧
      (¬(pre.borrowed + amount ≤ (getLendingTotals o1 o2).borrowed) →
        borrowConfirmPollStep pre amount now startTime o1 o2 st = (st, some 5000))) ∧
    (∀ (pre : LendingTotals) (amount now startTime : Nat) (o1 o2 : RpcOutcome)
        (st : BorrowTotalsState), 180000 < now - startTime →
      borrowConfirmPollStep pre amount now startTime o1 o2 st
        = ({ st with lastBorrowAmount := none }, none)) ∧
    (∀ (captured : LendingTotals) (o1 o2 : RpcOutcome) (st : BorrowTotalsState) (a : Nat),
      st.lastBorrowAmount = some a →
      (captured.borrowed + a ≤ (getLendingTotals o1 o2).borrowed →
        loadLendingTotalsStep captured o1 o2 st =
          { lendingTotals := getLendingTotals o1 o2, optimisticAvailable := none,
            lastBorrowAmount := none }) ∧
      (¬(captured.borrowed + a ≤ (getLendingTotals o1 o2).borrowed) →
        loadLendingTotalsStep captured o1 o2 st =
          { st with lendingTotals := getLendingTotals o1 o2 })) := by
  refine ⟨?_, ?_, ?_, ?_⟩
  · intro amount st
    exact ⟨rfl, rfl, rfl, rfl⟩
  · intro pre amount now startTime o1 o2 st hin
    constructor
    · intro hcond
      rw [borrowConfirmPollStep, if_neg (by omega), if_pos hcond]
    · intro hcond
      rw [borrowConfirmPollStep, if_neg (by omega), if_neg hcond]
  · intro pre amount now startTime o1 o2 st hout
    rw [borrowConfirmPollStep, if_pos hout]
  · intro captured o1 o2 st a hla
    constructor
    · intro hcond
      simp only [loadLendingTotalsStep, hla]
      rw [if_pos hcond]
    · intro hcond
      simp only [loadLendingTotalsStep, hla]
      rw [if_neg hcond, hla]

/-- Claim C4 witness: the optimistic increment and the confirmation poll
clearing at a fresh read that meets the pre-submission threshold. -/
theorem claim_C4_witness :
    (handleBorrowSuccess 100
        { lendingTotals := ⟨2000000, 600⟩, optimisticAvailable := none,
          lastBorrowAmount := none }).lendingTotals.borrowed = 600 + 100 ∧
    borrowConfirmPollStep ⟨2000000, 600⟩ 100 5000 0
        (.response false (some "2000000u128")) (.response false (some "700u128"))
        (handleBorrowSuccess 100
          { lendingTotals := ⟨2000000, 600⟩, optimisticAvailable := none,
            lastBorrowAmount := none }) =
      ({ lendingTotals := ⟨2000000, 700⟩, optimisticAvailable := none,
          lastBorrowAmount := none }, none) := by
  refine ⟨(claim_C4_amended.1 100
    { lendingTotals := ⟨2000000, 600⟩, optimisticAvailable := none,
      lastBorrowAmount := none }).1, ?_⟩
  have h2 := (claim_C4_amended.2.1 ⟨2000000, 600⟩ 100 5000 0
    (.response false (some "2000000u128")) (.response false (some "700u128"))
    (handleBorrowSuccess 100
      { lendingTotals := ⟨2000000, 600⟩, optimisticAvailable := none,
        lastBorrowAmount := none }) (by decide)).1 (by decide)
  rw [h2]
  decide

/-- Claim C5 (counterexample): starting from one unspent 100-unit vUSDG
record (displayed private balance 100), a lend of 60 passes the LendModal
record search (the record covers 60) and optimistically debits the balance
to 40; a repayment of a 50-unit borrow then passes the YourBorrows record
search (the same unspent record covers 50) and its optimistic debit drives
the displayed private balance to -10 — every validation the source performs
succeeded, yet a displayed balance went below zero, refuting the claim. -/
theorem claim_C5_counterexample :
    findLendRecord vUSDG_TOKEN_ID 60 [sampleUSDGRecord] = .found sampleUSDGRecord ∧
    findRepaymentRecord 50 [sampleUSDGRecord] = .found sampleUSDGRecord ∧
    getBalD (handleRepaySuccess vUSDG_TOKEN_ID 50 WALEO_TOKEN_ID 70
        (handleLendSuccess vUSDG_TOKEN_ID 60 1000 "tx1"
          { privateBalances := [(vUSDG_TOKEN_ID, 100)] })).privateBalances
        vUSDG_TOKEN_ID = -10 ∧
    ((-10 : Int) < 0) := by
  exact ⟨by decide, by decide, by decide, by decide⟩

/-- Claim C5 (amended): transfer amounts are validated against the displayed
public balance and wrap/unwrap amounts against the displayed private ALEO
and wALEO balances, so those optimistic mutations keep the validated balance
non-negative; lend and repay, however, validate only that a single unspent
wallet record covers the amount — not the displayed balance — so their
optimistic debits can drive a displayed private balance below zero. -/
theorem claim_C5_amended :
    (∀ (pos : Bool) (amount : Nat) (st : DashboardState) (tid : String),
      validateTransferAmount pos (amount : Int) (getBalD st.publicBalances tid) = none →
      0 ≤ getBalD st.publicBalances tid →
      0 ≤ getBalD (handleTransferSuccess tid amount st).publicBalances tid ∧
        (0 ≤ getBalD st.privateBalances tid →
          0 ≤ getBalD (handleTransferSuccess tid amount st).privateBalances tid)) ∧
    (∀ (amount : Nat) (st : DashboardState),
      wrapBalanceCheck (amount : Int) (getBalD st.privateBalances "ALEO") = .ok () →
      0 ≤ getBalD (handleWrapSuccess amount true st).privateBalances "ALEO") ∧
    (∀ (amount : Nat) (st : DashboardState),
      unwrapBalanceCheck (amount : Int) (getBalD st.privateBalances WALEO_TOKEN_ID)
          = .ok () →
      0 ≤ getBalD (handleWrapSuccess amount false st).privateBalances WALEO_TOKEN_ID) := by
  have hwne : ¬(WALEO_TOKEN_ID = "ALEO") := by decide
  have hane : ¬("ALEO" = WALEO_TOKEN_ID) := by decide
  refine ⟨?_, ?_, ?_⟩
  · intro pos amount st tid hval _
    rw [validateTransferAmount] at hval
    cases pos with
    | false => simp at hval
    | true =>
      rw [if_neg (by decide)] at hval
      by_cases hlt : getBalD st.publicBalances tid < (amount : Int)
      · rw [if_pos hlt] at hval; cases hval
      · constructor
        · simp [handleTransferSuccess, getBalD_setBal]
          omega
        · intro hpriv
          simp [handleTransferSuccess, getBalD_setBal]
          omega
  · intro amount st hchk
    rw [wrapBalanceCheck] at hchk
    by_cases hlt : getBalD st.privateBalances "ALEO" < (amount : Int)
    · rw [if_pos hlt] at hchk; cases hchk
    · simp [handleWrapSuccess, getBalD_setBal, hane, hwne]
      omega
  · intro amount st hchk
    rw [unwrapBalanceCheck] at hchk
    by_cases hlt : getBalD st.privateBalances WALEO_TOKEN_ID < (amount : Int)
    · rw [if_pos hlt] at hchk; cases hchk
    · simp [handleWrapSuccess, getBalD_setBal, hane, hwne]
      omega

/-- Claim C5 witness: the guarded transfer and wrap paths applied at concrete
balances that the validations accept. -/
theorem claim_C5_witness :
    (0 ≤ getBalD (handleTransferSuccess vUSDG_TOKEN_ID 5
        { publicBalances := [(vUSDG_TOKEN_ID, 10)] }).publicBalances vUSDG_TOKEN_ID) ∧
    (0 ≤ getBalD (handleWrapSuccess 4 true
        { privateBalances := [("ALEO", 9)] }).privateBalances "ALEO") := by
  exact ⟨(claim_C5_amended.1 true 5 { publicBalances := [(vUSDG_TOKEN_ID, 10)] }
      vUSDG_TOKEN_ID (by decide) (by decide)).1,
    claim_C5_amended.2.1 4 { privateBalances := [("ALEO", 9)] } rfl⟩

end Zlend
